import Mathlib

/-!
# Verification of the Email-Automation ingestion/dedup/categorization core

Shallow embedding, in Lean 4, of the parts of the repository
`DevNectorFoods/Email-Automation` that the specification's claims are about:

* `backend/services/categorization_service.py` — the flat weighted categorizer
  (`EmailCategorizationService.categorize_email` / `_calculate_category_score`);
* `backend/services/email_service.py` — header/body decoding, the hierarchical
  categorizer (`_enhanced_categorize_email` and its predicates/detectors),
  identity hashing (`generate_email_hash`), and the per-account fetch pipeline
  (`fetch_emails_from_account`);
* `backend/models/db_models.py` — the persistence contract used by the core
  (`DatabaseManager.email_exists`, `DatabaseManager.save_email`);
* `backend/routes/email_routes.py` / `backend/utils/background_tasks.py` — the
  per-account orchestration loops.

Python strings are modelled as Lean `String` (a list of Unicode scalar
values), bytes objects as `List Nat` with every element `< 256`, and the
MySQL `emails` table as a list of rows whose `id` column is the primary key.
Where a Python library primitive is embedded (`str.lower`, `str.isalnum`,
`bytes.decode`, `hashlib.md5`, …) the definition carries a doc comment
stating the fragment of the library semantics it reproduces.
-/

/-! ## Python string and bytes primitives -/

/-- Is `n` a contiguous sublist of `h`? -/
def containsSeq (n h : List Char) : Bool :=
  (List.range (h.length + 1)).any (fun i => n.isPrefixOf (h.drop i))

/-- Python `needle in hay` on strings: substring containment. -/
def pyIn (needle hay : String) : Bool :=
  containsSeq needle.data hay.data

/-- Python `str.lower`, restricted to ASCII case mapping: `A`–`Z` map to
`a`–`z`; every other character (in particular every character without an
ASCII case mapping that appears in this development, such as `é`) is left
unchanged. -/
def pyLowerChar (c : Char) : Char :=
  if 65 ≤ c.toNat ∧ c.toNat ≤ 90 then Char.ofNat (c.toNat + 32) else c

/-- Python `str.lower` applied characterwise. -/
def pyLower (s : String) : String :=
  ⟨s.data.map pyLowerChar⟩

/-- Python `str.isalnum` for a single character.  `isalnum` is true on every
Unicode alphanumeric character; this embedding covers the ASCII letters and
digits exactly, together with the non-ASCII alphanumerics that appear in this
development (the letter `é`, U+00E9).  It is faithful at every character any
theorem below evaluates it on. -/
def pyIsAlnumChar (c : Char) : Bool :=
  (48 ≤ c.toNat ∧ c.toNat ≤ 57) ∨ (97 ≤ c.toNat ∧ c.toNat ≤ 122) ∨
    (65 ≤ c.toNat ∧ c.toNat ≤ 90) ∨ c = 'é'

/-- Python whitespace for `str.strip`. -/
def pyIsSpace (c : Char) : Bool :=
  c = ' ' ∨ c = '\t' ∨ c = '\n' ∨ c = '\r' ∨ c = '\x0b' ∨ c = '\x0c'

/-- Python `str.strip()`: remove leading and trailing whitespace. -/
def pyStrip (s : String) : String :=
  ⟨(s.data.dropWhile pyIsSpace).reverse.dropWhile pyIsSpace |>.reverse⟩

/-- Python `s.split(sep)[0]` for a one-character separator: the prefix of `s`
before the first occurrence of `sep` (all of `s` when `sep` is absent). -/
def pySplitFirst (sep : Char) (s : String) : String :=
  ⟨s.data.takeWhile (· ≠ sep)⟩

/-- Python `s.split(sep)[-1]` for a one-character separator: the suffix of `s`
after the last occurrence of `sep` (all of `s` when `sep` is absent). -/
def pySplitLast (sep : Char) (s : String) : String :=
  ⟨(s.data.reverse.takeWhile (· ≠ sep)).reverse⟩

/-- Python `sep in s` for a single character. -/
def pyHasChar (sep : Char) (s : String) : Bool :=
  s.data.contains sep

/-- Python `s.replace(old, new)` where `old` is a single character and `new`
a single character: a characterwise map. -/
def pyReplaceChar (old new : Char) (s : String) : String :=
  ⟨s.data.map (fun c => if c = old then new else c)⟩

/-- Python `s.replace(old, '')` where `old` is a single character: deletion of
every occurrence. -/
def pyEraseChar (old : Char) (s : String) : String :=
  ⟨s.data.filter (· ≠ old)⟩

/-- Python `s.startswith(p)`. -/
def pyStartsWith (p s : String) : Bool :=
  p.data.isPrefixOf s.data

/-- Python `s.endswith(p)`. -/
def pyEndsWith (p s : String) : Bool :=
  p.data.isSuffixOf s.data

/-- Python `s[2:-1]` as used by `DatabaseManager.save_email` to strip a
stringified-bytes wrapper `b'…'`. -/
def pyStrip2m1 (s : String) : String :=
  ⟨(s.data.drop 2).dropLast⟩

/-! ## UTF-8 and Latin-1 codecs

`bytes.decode('utf-8')` (strict), `bytes.decode('utf-8', errors='ignore')`
and `bytes.decode('latin1')`, plus `str.encode('utf-8')`. -/

/-- UTF-8 encoding of one Unicode scalar value, as a list of bytes. -/
def utf8EncodeChar (c : Char) : List Nat :=
  let n := c.toNat
  if n < 0x80 then [n]
  else if n < 0x800 then [0xC0 + n / 64, 0x80 + n % 64]
  else if n < 0x10000 then [0xE0 + n / 4096, 0x80 + (n / 64) % 64, 0x80 + n % 64]
  else [0xF0 + n / 0x40000, 0x80 + (n / 4096) % 64, 0x80 + (n / 64) % 64, 0x80 + n % 64]

/-- Python `s.encode('utf-8')`. -/
def utf8Encode (s : String) : List Nat :=
  s.data.foldr (fun c acc => utf8EncodeChar c ++ acc) []

/-- Is `b` a UTF-8 continuation byte (`0x80`–`0xBF`)? -/
def utf8Cont (b : Nat) : Bool :=
  0x80 ≤ b ∧ b ≤ 0xBF

/-- The scalar value encoded by a 2-byte sequence. -/
def utf8Val2 (b1 b2 : Nat) : Nat := (b1 - 0xC0) * 64 + (b2 - 0x80)

/-- The scalar value encoded by a 3-byte sequence. -/
def utf8Val3 (b1 b2 b3 : Nat) : Nat :=
  (b1 - 0xE0) * 4096 + (b2 - 0x80) * 64 + (b3 - 0x80)

/-- The scalar value encoded by a 4-byte sequence. -/
def utf8Val4 (b1 b2 b3 b4 : Nat) : Nat :=
  (b1 - 0xF0) * 0x40000 + (b2 - 0x80) * 4096 + (b3 - 0x80) * 64 + (b4 - 0x80)

/-- Strict UTF-8 decoding (`bytes.decode('utf-8')`): `none` models a raised
`UnicodeDecodeError`.  Overlong encodings and surrogates are rejected, as in
Python. -/
def utf8DecodeStrict : List Nat → Option (List Char)
  | [] => some []
  | b1 :: rest =>
    if b1 < 0x80 then
      (utf8DecodeStrict rest).map (Char.ofNat b1 :: ·)
    else if 0xC2 ≤ b1 ∧ b1 ≤ 0xDF then
      match rest with
      | b2 :: rest2 =>
        if utf8Cont b2 then
          (utf8DecodeStrict rest2).map (Char.ofNat (utf8Val2 b1 b2) :: ·)
        else none
      | [] => none
    else if 0xE0 ≤ b1 ∧ b1 ≤ 0xEF then
      match rest with
      | b2 :: b3 :: rest3 =>
        if (if b1 = 0xE0 then 0xA0 ≤ b2 ∧ b2 ≤ 0xBF
            else if b1 = 0xED then 0x80 ≤ b2 ∧ b2 ≤ 0x9F
            else utf8Cont b2 = true) ∧ utf8Cont b3 = true then
          (utf8DecodeStrict rest3).map (Char.ofNat (utf8Val3 b1 b2 b3) :: ·)
        else none
      | _ => none
    else if 0xF0 ≤ b1 ∧ b1 ≤ 0xF4 then
      match rest with
      | b2 :: b3 :: b4 :: rest4 =>
        if (if b1 = 0xF0 then 0x90 ≤ b2 ∧ b2 ≤ 0xBF
            else if b1 = 0xF4 then 0x80 ≤ b2 ∧ b2 ≤ 0x8F
            else utf8Cont b2 = true) ∧ utf8Cont b3 = true ∧ utf8Cont b4 = true then
          (utf8DecodeStrict rest4).map (Char.ofNat (utf8Val4 b1 b2 b3 b4) :: ·)
        else none
      | _ => none
    else none

/-- `bytes.decode('utf-8')` returning a `String`. -/
def utf8DecodeStrictStr (bs : List Nat) : Option String :=
  (utf8DecodeStrict bs).map String.mk

/-- One step of permissive UTF-8 decoding: given a lead byte and the
remaining bytes, either the decoded character together with the number of
continuation bytes consumed, or `none` (the lead byte is dropped). -/
def utf8IgnoreStep (b1 : Nat) (rest : List Nat) : Option Char × Nat :=
  if b1 < 0x80 then (some (Char.ofNat b1), 0)
  else if 0xC2 ≤ b1 ∧ b1 ≤ 0xDF then
    match rest with
    | b2 :: _ =>
      if utf8Cont b2 then (some (Char.ofNat (utf8Val2 b1 b2)), 1) else (none, 0)
    | [] => (none, 0)
  else if 0xE0 ≤ b1 ∧ b1 ≤ 0xEF then
    match rest with
    | b2 :: b3 :: _ =>
      if (if b1 = 0xE0 then 0xA0 ≤ b2 ∧ b2 ≤ 0xBF
          else if b1 = 0xED then 0x80 ≤ b2 ∧ b2 ≤ 0x9F
          else utf8Cont b2 = true) ∧ utf8Cont b3 = true then
        (some (Char.ofNat (utf8Val3 b1 b2 b3)), 2)
      else (none, 0)
    | _ => (none, 0)
  else if 0xF0 ≤ b1 ∧ b1 ≤ 0xF4 then
    match rest with
    | b2 :: b3 :: b4 :: _ =>
      if (if b1 = 0xF0 then 0x90 ≤ b2 ∧ b2 ≤ 0xBF
          else if b1 = 0xF4 then 0x80 ≤ b2 ∧ b2 ≤ 0x8F
          else utf8Cont b2 = true) ∧ utf8Cont b3 = true ∧ utf8Cont b4 = true then
        (some (Char.ofNat (utf8Val4 b1 b2 b3 b4)), 3)
      else (none, 0)
    | _ => (none, 0)
  else (none, 0)

/-- Structural worker for `utf8DecodeIgnore`; the fuel argument bounds the
number of bytes still to examine and is initialized to the list length, so
the `0` fallback is never reached. -/
def utf8DecodeIgnoreGo : Nat → List Nat → List Char
  | _, [] => []
  | 0, _ => []
  | fuel + 1, b1 :: rest =>
    match utf8IgnoreStep b1 rest with
    | (some c, k) => c :: utf8DecodeIgnoreGo fuel (rest.drop k)
    | (none, _) => utf8DecodeIgnoreGo fuel rest

/-- `bytes.decode('utf-8', errors='ignore')`: undecodable bytes are dropped
(one byte at a time on a malformed sequence) and decoding continues. -/
def utf8DecodeIgnore (l : List Nat) : List Char :=
  utf8DecodeIgnoreGo l.length l

/-- `bytes.decode('latin1')`: total on genuine bytes — every byte `0`–`255`
maps to the Unicode scalar of the same value.  `none` is returned only when
the list is not a genuine byte string (an element `≥ 256`), which for Python
`bytes` objects cannot happen. -/
def latin1Decode (bs : List Nat) : Option String :=
  if bs.all (· < 256) then some ⟨bs.map Char.ofNat⟩ else none

/-! ## MD5 (`hashlib.md5(...).hexdigest()`)

Reference implementation over byte lists; 32-bit words are `Nat` values kept
`< 2^32` by explicit `% 2^32`. -/

/-- The 64 MD5 sine-table constants `⌊|sin(i+1)|·2³²⌋`. -/
def md5K : List Nat :=
  [3614090360, 3905402710, 606105819, 3250441966, 4118548399, 1200080426,
   2821735955, 4249261313, 1770035416, 2336552879, 4294925233, 2304563134,
   1804603682, 4254626195, 2792965006, 1236535329, 4129170786, 3225465664,
   643717713, 3921069994, 3593408605, 38016083, 3634488961, 3889429448,
   568446438, 3275163606, 4107603335, 1163531501, 2850285829, 4243563512,
   1735328473, 2368359562, 4294588738, 2272392833, 1839030562, 4259657740,
   2763975236, 1272893353, 4139469664, 3200236656, 681279174, 3936430074,
   3572445317, 76029189, 3654602809, 3873151461, 530742520, 3299628645,
   4096336452, 1126891415, 2878612391, 4237533241, 1700485571, 2399980690,
   4293915773, 2240044497, 1873313359, 4264355552, 2734768916, 1309151649,
   4149444226, 3174756917, 718787259, 3951481745]

/-- The MD5 per-round left-rotation amounts. -/
def md5S : List Nat :=
  [7, 12, 17, 22, 7, 12, 17, 22, 7, 12, 17, 22, 7, 12, 17, 22,
   5, 9, 14, 20, 5, 9, 14, 20, 5, 9, 14, 20, 5, 9, 14, 20,
   4, 11, 16, 23, 4, 11, 16, 23, 4, 11, 16, 23, 4, 11, 16, 23,
   6, 10, 15, 21, 6, 10, 15, 21, 6, 10, 15, 21, 6, 10, 15, 21]

/-- 32-bit left rotation. -/
def rotl32 (x s : Nat) : Nat :=
  (x * 2 ^ s + x / 2 ^ (32 - s)) % 2 ^ 32

/-- 32-bit bitwise complement (for `x < 2^32`). -/
def not32 (x : Nat) : Nat := 2 ^ 32 - 1 - x

/-- The MD5 nonlinear function for round `i`. -/
def md5F (i b c d : Nat) : Nat :=
  if i < 16 then (b &&& c) ||| (not32 b &&& d)
  else if i < 32 then (d &&& b) ||| (not32 d &&& c)
  else if i < 48 then b ^^^ c ^^^ d
  else c ^^^ (b ||| not32 d)

/-- The MD5 message-word index for round `i`. -/
def md5G (i : Nat) : Nat :=
  if i < 16 then i
  else if i < 32 then (5 * i + 1) % 16
  else if i < 48 then (3 * i + 5) % 16
  else (7 * i) % 16

/-- One MD5 round applied to the state `(a, b, c, d)` with message words `M`. -/
def md5Round (M : List Nat) (st : Nat × Nat × Nat × Nat) (i : Nat) :
    Nat × Nat × Nat × Nat :=
  let (a, b, c, d) := st
  let f := (md5F i b c d + a + md5K.getD i 0 + M.getD (md5G i) 0) % 2 ^ 32
  (d, (b + rotl32 f (md5S.getD i 0)) % 2 ^ 32, b, c)

/-- Split a byte list into little-endian 32-bit words (groups of 4). -/
def bytesToWordsLE : List Nat → List Nat
  | b0 :: b1 :: b2 :: b3 :: rest =>
    (b0 + 256 * (b1 + 256 * (b2 + 256 * b3))) :: bytesToWordsLE rest
  | _ => []

/-- A 32-bit word as 4 little-endian bytes. -/
def wordToBytesLE (w : Nat) : List Nat :=
  [w % 256, w / 256 % 256, w / 65536 % 256, w / 16777216 % 256]

/-- Process one 64-byte MD5 block. -/
def md5Block (st : Nat × Nat × Nat × Nat) (block : List Nat) :
    Nat × Nat × Nat × Nat :=
  let M := bytesToWordsLE block
  let (a, b, c, d) := (List.range 64).foldl (md5Round M) st
  let (a0, b0, c0, d0) := st
  ((a0 + a) % 2 ^ 32, (b0 + b) % 2 ^ 32, (c0 + c) % 2 ^ 32, (d0 + d) % 2 ^ 32)

/-- MD5 padding: `0x80`, zeros to 56 mod 64, then the bit length as 8
little-endian bytes. -/
def md5Pad (msg : List Nat) : List Nat :=
  let padLen := (56 + 64 - (msg.length + 1) % 64) % 64
  msg ++ [0x80] ++ List.replicate padLen 0 ++
    (List.range 8).map (fun i => msg.length * 8 / 2 ^ (8 * i) % 256)

/-- Structural worker for `chunks64`; the fuel argument bounds the number of
chunks still to produce and is initialized to the list length, so the `0`
fallback is never reached. -/
def chunks64Go : Nat → List Nat → List (List Nat)
  | _, [] => []
  | 0, _ => []
  | fuel + 1, l => l.take 64 :: chunks64Go fuel (l.drop 64)

/-- Split a list into chunks of 64 elements. -/
def chunks64 (l : List Nat) : List (List Nat) :=
  chunks64Go l.length l

/-- The MD5 digest of a byte string, as 16 bytes. -/
def md5Bytes (msg : List Nat) : List Nat :=
  let (a, b, c, d) :=
    (chunks64 (md5Pad msg)).foldl md5Block
      (0x67452301, 0xefcdab89, 0x98badcfe, 0x10325476)
  wordToBytesLE a ++ wordToBytesLE b ++ wordToBytesLE c ++ wordToBytesLE d

/-- A nibble as a lowercase hex digit. -/
def hexDigit (n : Nat) : Char :=
  if n < 10 then Char.ofNat ('0'.toNat + n) else Char.ofNat ('a'.toNat + n - 10)

/-- A byte as two lowercase hex digits. -/
def byteHex (b : Nat) : List Char := [hexDigit (b / 16), hexDigit (b % 16)]

/-- Python `hashlib.md5(bs).hexdigest()`. -/
def md5Hex (bs : List Nat) : String :=
  ⟨(md5Bytes bs).foldr (fun b acc => byteHex b ++ acc) []⟩

/-! ## The `Email` data model (`backend/models/email_models.py`)

Python `str`-or-`bytes` values are `PyStrBytes`; `datetime` values are
carried as their `str(...)` rendering (the pipeline guarantees, via
`ensure_datetime`, that `date`/`created_at` are always `datetime` objects,
and the only uses relevant to the claims are `str(email.date)` inside
`generate_email_hash` and pass-through storage). -/

/-- A Python value that is either a `str` or a `bytes` object. -/
inductive PyStrBytes where
  | str (s : String)
  | bytes (b : List Nat)
deriving DecidableEq, Repr

/-- The `Email` dataclass (the fields the claims touch).  `id` admits a
`bytes` value because `generate_email_hash` and `save_email` both guard for
`isinstance(email.id, bytes)`. -/
structure Email where
  id : PyStrBytes
  account_email : String
  subject : String
  sender : String
  dateStr : String
  body : String
  raw_data : String := ""
  category : String := "general"
  main_category : String := "general"
  sub_category : String := "general"
  is_read : Bool := false
  is_starred : Bool := false
  is_archived : Bool := false
  is_spam : Bool := false
  is_trashed : Bool := false
  folder : String := "inbox"
  created_atStr : String := ""
  email_hash : Option String := none
  verification_hash : Option String := none
  message_id : Option String := none
deriving DecidableEq, Repr

/-! ## Flat weighted categorizer
(`backend/services/categorization_service.py`,
`EmailCategorizationService`) -/

/-- One entry of `self.category_rules`: a named bucket with keyword list,
sender-pattern list, priority and weight.  The rule dictionaries built in
`__init__` contain exactly the keys `keywords`, `sender_patterns`,
`priority`, `weight` — in particular **no** `category` key.  Weights are the
decimal literals of the source, represented exactly as rationals. -/
structure CategoryRule where
  name : String
  keywords : List String
  sender_patterns : List String
  priority : Int
  weight : ℚ
deriving DecidableEq, Repr

/-- `self.category_rules` as built in `__init__`, in dict insertion order. -/
def defaultCategoryRules : List CategoryRule :=
  [⟨"billing",
    ["invoice", "payment", "bill", "billing", "receipt", "charge", "subscription"],
    ["billing@", "invoice@", "payments@", "noreply@paypal", "stripe"], 1, 3/2⟩,
   ⟨"support",
    ["support", "help", "assistance", "ticket", "issue", "problem", "question"],
    ["support@", "help@", "customer@", "service@"], 2, 6/5⟩,
   ⟨"marketing",
    ["newsletter", "promotion", "offer", "sale", "discount", "marketing", "unsubscribe"],
    ["marketing@", "newsletter@", "promo@", "offers@"], 3, 1⟩,
   ⟨"notification",
    ["notification", "alert", "reminder", "update", "status", "confirm"],
    ["no-reply@", "noreply@", "notification@", "alerts@"], 4, 13/10⟩,
   ⟨"security",
    ["security", "password", "login", "verification", "authentication", "suspicious"],
    ["security@", "auth@", "verification@"], 0, 2⟩]

/-- A `re` word character (`\w`): alphanumeric or underscore. -/
def isWordChar (c : Char) : Bool :=
  pyIsAlnumChar c ∨ c = '_'

/-- Does `\b` match at position `p` of `hay`?  True when exactly one of the
characters adjacent to the position is a word character (positions outside
the string count as non-word). -/
def wordBoundaryAt (hay : List Char) (p : Nat) : Bool :=
  (decide (0 < p) && isWordChar (hay.getD (p - 1) ' ')) !=
    isWordChar (hay.getD p ' ')

/-- `re.search` of the compiled pattern `r'\b' + re.escape(k) + r'\b'` in
`text`: some occurrence of the (escaped, hence literal) keyword flanked by
word boundaries.  The `re.IGNORECASE` flag is immaterial here because every
keyword is lower-case and every text searched has been lower-cased. -/
def reSearchWordBounded (k text : String) : Bool :=
  (List.range (text.data.length + 1)).any fun i =>
    k.data.isPrefixOf (text.data.drop i) && wordBoundaryAt text.data i &&
      wordBoundaryAt text.data (i + k.data.length)

/-- `re.search(p, sender)` for the compiled sender patterns: each of the
configured sender patterns is a regex without metacharacters, so the search
is substring containment. -/
def reSearchLiteral (p sender : String) : Bool :=
  pyIn p sender

/-- `self.compiled_patterns.get(key, {})`: the compiled-pattern dictionary is
keyed by category name. -/
def compiledPatternsGet (rules : List CategoryRule) (key : String) :
    Option CategoryRule :=
  rules.find? (fun r => r.name == key)

/-- `rules.get('category', '')` inside `_calculate_category_score`: the rule
dictionaries passed in carry no `category` key (see `CategoryRule`), so the
`.get` always yields the default `''`. -/
def ruleGetCategory (_ : CategoryRule) : String := ""

/-- `patterns.get('keywords', [])` — the keyword patterns of a compiled
entry, `[]` for the empty default dict. -/
def patternsKeywords : Option CategoryRule → List String
  | some r => r.keywords
  | none => []

/-- `patterns.get('sender_patterns', [])`. -/
def patternsSenderPatterns : Option CategoryRule → List String
  | some r => r.sender_patterns
  | none => []

/-- `EmailCategorizationService._calculate_category_score(text, sender,
rules)` with the service's compiled patterns for `allRules`:
`score = keyword_matches·2·weight + sender_matches·3·weight +
(5 − priority)·0.5`, where the pattern lists are looked up under the key
`rules.get('category', '')`. -/
def calculate_category_score (allRules : List CategoryRule)
    (text sender : String) (rules : CategoryRule) : ℚ :=
  let patterns := compiledPatternsGet allRules (ruleGetCategory rules)
  let keywordMatches :=
    ((patternsKeywords patterns).filter (fun p => reSearchWordBounded p text)).length
  let senderMatches :=
    ((patternsSenderPatterns patterns).filter (fun p => reSearchLiteral p sender)).length
  (keywordMatches : ℚ) * 2 * rules.weight +
    (senderMatches : ℚ) * 3 * rules.weight + (5 - (rules.priority : ℚ)) * (1/2)

/-- Python `max(items, key=lambda x: x[1])` over a nonempty association
list: the first entry with the maximal score (later entries replace the
current best only when strictly greater). -/
def maxBySecond (x : String × ℚ) (xs : List (String × ℚ)) : String × ℚ :=
  xs.foldl (fun best y => if y.2 > best.2 then y else best) x

/-- `EmailCategorizationService.categorize_email`: score every configured
rule against the lower-cased combined `subject sender body` text, keep the
positive scores (in rule-declaration order, as dict insertion order),
return the best-scoring category or `'general'` when no score is
positive. -/
def categorize_email (rules : List CategoryRule) (e : Email) : String :=
  let text := pyLower (e.subject ++ " " ++ e.sender ++ " " ++ e.body)
  let senderLower := pyLower e.sender
  let categoryScores :=
    (rules.map (fun r => (r.name, calculate_category_score rules text senderLower r))).filter
      (fun p => 0 < p.2)
  match categoryScores with
  | best :: others => (maxBySecond best others).1
  | [] => "general"

/-- The categorizer the claim describes, written from the claim's words:
count keyword matches (word-boundary, case-insensitive) and sender-pattern
matches **of each rule's own pattern lists**, score by the same formula,
return the best non-zero score (first-declared rule wins ties), and return
`'general'` whenever no rule's keywords and no rule's sender patterns
match. -/
def claimedCategorizeEmail (rules : List CategoryRule) (e : Email) : String :=
  let text := pyLower (e.subject ++ " " ++ e.sender ++ " " ++ e.body)
  let senderLower := pyLower e.sender
  let noMatch := rules.all fun r =>
    r.keywords.all (fun k => !reSearchWordBounded k text) &&
      r.sender_patterns.all (fun p => !reSearchLiteral p senderLower)
  if noMatch then "general"
  else
    let score := fun (r : CategoryRule) =>
      ((r.keywords.filter (fun k => reSearchWordBounded k text)).length : ℚ) * 2 * r.weight +
        ((r.sender_patterns.filter (fun p => reSearchLiteral p senderLower)).length : ℚ) * 3 *
          r.weight + (5 - (r.priority : ℚ)) * (1/2)
    let scores := (rules.map (fun r => (r.name, score r))).filter (fun p => 0 < p.2)
    match scores with
    | best :: others => (maxBySecond best others).1
    | [] => "general"

/-! ## Hierarchical categorizer
(`EmailService._enhanced_categorize_email` and helpers,
`backend/services/email_service.py`) -/

/-- `EmailService._extract_domain`: the part of the sender after the last
`@`, truncated before the first `>`, stripped; the sender itself when it
contains no `@`. -/
def extract_domain (sender : String) : String :=
  if pyHasChar '@' sender then
    pyStrip (pySplitFirst '>' (pySplitLast '@' sender))
  else sender

/-- The `name_part` computation of `EmailService._extract_sender_name`
(lines 591–611): display name before `<`, else local part before `@`, else
the sender; quotes stripped; if empty or still containing `@`, fall back to
the domain's first label. -/
def senderNamePart (sender : String) : String :=
  let namePart :=
    if pyHasChar '<' sender ∧ pyHasChar '>' sender then
      pyStrip (pySplitFirst '<' sender)
    else if pyHasChar '@' sender then pySplitFirst '@' sender
    else sender
  let namePart := pyStrip (pyEraseChar '\'' (pyEraseChar '"' namePart))
  if namePart = "" ∨ pyHasChar '@' namePart then
    let domain := extract_domain sender
    if pyHasChar '.' domain then pySplitFirst '.' domain else domain
  else namePart

/-- The `folder_name` computation of `_extract_sender_name` (lines 613–615):
`-`, `.` and space become `_`, then only alphanumerics and `_` are kept. -/
def senderFolderName (sender : String) : String :=
  let f := pyReplaceChar ' ' '_'
    (pyReplaceChar '.' '_' (pyReplaceChar '-' '_' (senderNamePart sender)))
  ⟨f.data.filter (fun c => pyIsAlnumChar c ∨ c = '_')⟩

/-- `EmailService._extract_sender_name`: a folder-friendly name derived from
the sender; an empty result becomes `'unknown_sender'`, and the result is
lower-cased.  (The `try/except` wrapper returning `'unknown_sender'` guards
operations that are total; every branch of the body is modelled.) -/
def extract_sender_name (sender : String) : String :=
  let folderName := senderFolderName sender
  let folderName := if folderName = "" then "unknown_sender" else folderName
  pyLower folderName

/-- `EmailService._is_bank_email`. -/
def is_bank_email (subject sender domain : String) : Bool :=
  (["bank", "sbi", "hdfc", "icici", "axis", "kotak", "yes", "pnb", "union"].any
      fun k => pyIn k subject || pyIn k sender) ||
    (["sbi.co.in", "hdfcbank.com", "icicibank.com", "axisbank.com", "kotak.com",
      "yesbank.in", "pnb.co.in"].any fun d => pyIn d domain)

/-- `EmailService._detect_bank_name_dynamic`: first known-bank keyword found
in subject/sender/domain (dict insertion order), else the sender name. -/
def detect_bank_name_dynamic (subject sender domain senderName : String) : String :=
  let knownBanks : List (String × String) :=
    [("sbi", "state_bank_of_india"), ("hdfc", "hdfc_bank"), ("icici", "icici_bank"),
     ("axis", "axis_bank"), ("kotak", "kotak_bank"), ("yes", "yes_bank"),
     ("pnb", "punjab_national_bank"), ("union", "union_bank"),
     ("canara", "canara_bank"), ("bankofbaroda", "bank_of_baroda"),
     ("idbi", "idbi_bank")]
  match knownBanks.find? (fun kv =>
      pyIn kv.1 subject || pyIn kv.1 sender || pyIn kv.1 domain) with
  | some kv => kv.2
  | none => senderName

/-- `EmailService._is_company_email` (only the subject is consulted). -/
def is_company_email (subject _sender _domain : String) : Bool :=
  ["invoice", "receipt", "statement", "account", "business", "corporate"].any
    fun k => pyIn k subject

/-- `EmailService._detect_company_name_dynamic`. -/
def detect_company_name_dynamic (_subject _sender domain senderName : String) :
    String :=
  if pyHasChar '.' domain then
    let companyPart := pySplitFirst '.' domain
    let companyName := pyReplaceChar '.' '_' (pyReplaceChar '-' '_' companyPart)
    let companyName := ⟨companyName.data.filter (fun c => pyIsAlnumChar c ∨ c = '_')⟩
    if companyName ≠ "" ∧ companyName ≠ "www" then pyLower companyName
    else senderName
  else senderName

/-- `EmailService._is_support_email`. -/
def is_support_email (subject _sender : String) : Bool :=
  ["support", "help", "issue", "problem", "ticket", "assistance"].any
    fun k => pyIn k subject

/-- `EmailService._detect_support_type`. -/
def detect_support_type (subject _body : String) : String :=
  if ["technical", "tech", "software", "app"].any (fun w => pyIn w subject) then
    "technical"
  else if ["billing", "payment", "invoice"].any (fun w => pyIn w subject) then
    "billing"
  else if ["general", "inquiry", "question"].any (fun w => pyIn w subject) then
    "general"
  else "general"

/-- `EmailService._is_newsletter_email`. -/
def is_newsletter_email (subject _sender : String) : Bool :=
  ["newsletter", "news", "update", "digest", "weekly", "monthly"].any
    fun k => pyIn k subject

/-- `EmailService._detect_newsletter_type`. -/
def detect_newsletter_type (subject _body : String) : String :=
  if ["tech", "technology", "software"].any (fun w => pyIn w subject) then
    "tech_news"
  else if ["business", "finance", "market"].any (fun w => pyIn w subject) then
    "business_news"
  else if ["health", "medical", "fitness"].any (fun w => pyIn w subject) then
    "health_news"
  else "general_news"

/-- `EmailService._is_billing_email`. -/
def is_billing_email (subject _sender : String) : Bool :=
  ["invoice", "payment", "bill", "receipt", "statement", "due"].any
    fun k => pyIn k subject

/-- `EmailService._detect_billing_type`. -/
def detect_billing_type (subject _body : String) : String :=
  if pyIn "invoice" subject then "invoice"
  else if pyIn "payment" subject then "payment"
  else if pyIn "receipt" subject then "receipt"
  else "billing"

/-- `EmailService._is_order_email`. -/
def is_order_email (subject _sender : String) : Bool :=
  ["order", "purchase", "buy", "shipping", "delivery", "tracking"].any
    fun k => pyIn k subject

/-- `EmailService._detect_order_type`. -/
def detect_order_type (subject _body : String) : String :=
  if pyIn "shipping" subject || pyIn "delivery" subject then "shipping"
  else if pyIn "tracking" subject then "tracking"
  else if pyIn "order" subject then "order_confirmation"
  else "order"

/-- `EmailService._is_social_email`. -/
def is_social_email (subject sender domain : String) : Bool :=
  (["facebook.com", "twitter.com", "linkedin.com", "instagram.com",
    "youtube.com"].any fun d => pyIn d domain) ||
    (["facebook", "twitter", "linkedin", "instagram", "youtube"].any
      fun k => pyIn k subject || pyIn k sender)

/-- `EmailService._detect_social_platform`. -/
def detect_social_platform (subject sender domain : String) : String :=
  if pyIn "facebook" subject || pyIn "facebook" sender || pyIn "facebook.com" domain then
    "facebook"
  else if pyIn "twitter" subject || pyIn "twitter" sender || pyIn "twitter.com" domain then
    "twitter"
  else if pyIn "linkedin" subject || pyIn "linkedin" sender || pyIn "linkedin.com" domain then
    "linkedin"
  else if pyIn "instagram" subject || pyIn "instagram" sender || pyIn "instagram.com" domain then
    "instagram"
  else if pyIn "youtube" subject || pyIn "youtube" sender || pyIn "youtube.com" domain then
    "youtube"
  else "other_social"

/-- `EmailService._is_security_email`. -/
def is_security_email (subject _sender : String) : Bool :=
  ["security", "password", "login", "verification", "otp", "2fa"].any
    fun k => pyIn k subject

/-- `EmailService._detect_security_type`. -/
def detect_security_type (subject _body : String) : String :=
  if pyIn "otp" subject || pyIn "verification" subject then "otp"
  else if pyIn "password" subject then "password"
  else if pyIn "login" subject then "login"
  else "security"

/-- `EmailService._is_meeting_email`. -/
def is_meeting_email (subject _sender : String) : Bool :=
  ["meeting", "appointment", "schedule", "calendar", "call"].any
    fun k => pyIn k subject

/-- `EmailService._detect_meeting_type`. -/
def detect_meeting_type (subject _body : String) : String :=
  if pyIn "appointment" subject then "appointment"
  else if pyIn "call" subject then "call"
  else "meeting"

/-- `EmailService._is_career_email`. -/
def is_career_email (subject _sender : String) : Bool :=
  ["job", "career", "application", "resume", "interview", "position"].any
    fun k => pyIn k subject

/-- `EmailService._detect_career_type`. -/
def detect_career_type (subject _body : String) : String :=
  if pyIn "interview" subject then "interview"
  else if pyIn "application" subject then "application"
  else "job"

/-- `EmailService._is_notification_email`. -/
def is_notification_email (subject _sender : String) : Bool :=
  ["notification", "alert", "reminder", "update"].any fun k => pyIn k subject

/-- `EmailService._detect_notification_type`. -/
def detect_notification_type (subject _body : String) : String :=
  if pyIn "failed" subject || pyIn "error" subject then "failure"
  else if pyIn "success" subject || pyIn "completed" subject then "success"
  else "general"

/-- `EmailService._enhanced_categorize_email`: the ordered predicate chain
over the lower-cased subject/sender/body, returning
`(main_category, sub_category)`. -/
def enhanced_categorize_email (e : Email) : String × String :=
  let subject := pyLower e.subject
  let sender := pyLower e.sender
  let body := pyLower e.body
  let domain := extract_domain sender
  let senderName := extract_sender_name e.sender
  if is_bank_email subject sender domain then
    ("bank", detect_bank_name_dynamic subject sender domain senderName)
  else if is_company_email subject sender domain then
    ("company", detect_company_name_dynamic subject sender domain senderName)
  else if is_support_email subject sender then
    ("support", detect_support_type subject body)
  else if is_newsletter_email subject sender then
    ("newsletter", detect_newsletter_type subject body)
  else if is_billing_email subject sender then
    ("billing", detect_billing_type subject body)
  else if is_order_email subject sender then
    ("order", detect_order_type subject body)
  else if is_social_email subject sender domain then
    ("social", detect_social_platform subject sender domain)
  else if is_security_email subject sender then
    ("security", detect_security_type subject body)
  else if is_meeting_email subject sender then
    ("meeting", detect_meeting_type subject body)
  else if is_career_email subject sender then
    ("career", detect_career_type subject body)
  else if is_notification_email subject sender then
    ("notification", detect_notification_type subject body)
  else ("general", senderName)

/-! ## Header decoding (`EmailService._decode_email_header`,
`EmailService._decode_header`)

`email.header.decode_header(header)` is a Python-stdlib parser external to
the repository; its result — a list of segments, each either an already
decoded string or a byte string paired with its declared charset — is taken
here as an explicit argument alongside the raw header, and theorems
quantify over (or instantiate) that pair. -/

/-- One segment of `decode_header`'s result: `(str, None)` or
`(bytes, charset-or-None)`. -/
inductive HeaderSeg where
  | strPart (s : String)
  | bytesPart (b : List Nat) (charset : Option String)
deriving DecidableEq, Repr

/-- `bytes.decode(name)` for a declared charset name: the UTF-8 and Latin-1
codec families are modelled exactly; any other charset name fails (as an
unknown or wrongly-declared encoding would raise), which every caller below
catches.  `none` models a raised exception. -/
def pyCharsetDecode (name : String) (bs : List Nat) : Option String :=
  if name ∈ ["utf-8", "utf8", "utf_8", "UTF-8", "u8"] then utf8DecodeStrictStr bs
  else if name ∈ ["latin1", "latin-1", "latin_1", "iso-8859-1", "iso8859-1",
      "8859", "cp819", "latin"] then latin1Decode bs
  else none

/-- Decode every element, failing when any element fails (the behaviour of
a Python comprehension whose body may raise inside a `try`). -/
def mapOption {α β : Type} (f : α → Option β) : List α → Option (List β)
  | [] => some []
  | a :: t =>
    match f a with
    | none => none
    | some b => (mapOption f t).map (b :: ·)

/-- The per-segment decode of `_decode_email_header`:
`part.decode(charset or 'utf-8')` for bytes segments (strict), identity for
string segments; `none` models a raised exception. -/
def decodeSegOrUtf8 : HeaderSeg → Option String
  | .strPart s => some s
  | .bytesPart b cs => pyCharsetDecode (cs.getD "utf-8") b

/-- `EmailService._decode_email_header` (lines 148–160): `None` header →
`''`; otherwise each byte segment is decoded with `charset or 'utf-8'`
(strict) and the decoded parts are joined with `' '`; any decode error is
caught and `''` is returned. -/
def decode_email_header (header : Option String)
    (parts : List HeaderSeg) : String :=
  match header with
  | none => ""
  | some _ =>
    match mapOption decodeSegOrUtf8 parts with
    | some segs => " ".intercalate segs
    | none => ""

/-- The per-segment decode of `_decode_header`: a bytes segment with a
declared charset is decoded strictly with it (`part.decode(encoding)`); a
bytes segment without one is decoded permissively
(`part.decode('utf-8', errors='ignore')`, dropping undecodable bytes); a
string segment passes through.  `none` models a raised exception. -/
def decodeSegDeclared : HeaderSeg → Option String
  | .strPart s => some s
  | .bytesPart b cs =>
    match cs with
    | some c => pyCharsetDecode c b
    | none => some ⟨utf8DecodeIgnore b⟩

/-- `EmailService._decode_header` (lines 328–348): falsy header → `''`;
segments are decoded per `decodeSegDeclared` and concatenated; any decode
error is caught and the **raw header** is returned unchanged. -/
def decode_header_fallback (header : String) (parts : List HeaderSeg) : String :=
  if header = "" then ""
  else
    match mapOption decodeSegDeclared parts with
    | some segs => String.join segs
    | none => header

/-! ## Body extraction (`EmailService._extract_email_body`) -/

/-- The outcome of the three-step decode ladder of `_extract_email_body`:
which `try` step produced the body.  `failed` is the final branch that logs
`Body decode failed …` and sets the body to `''`. -/
inductive BodyDecode where
  | utf8 (s : String)
  | latin1 (s : String)
  | ignoreFallback (s : String)
  | failed
deriving DecidableEq, Repr

/-- The decoded body text of an outcome (`''` for the failure branch). -/
def BodyDecode.text : BodyDecode → String
  | .utf8 s => s
  | .latin1 s => s
  | .ignoreFallback s => s
  | .failed => ""

/-- The `try: payload.decode('utf-8') / except: payload.decode('latin1') /
except: payload.decode('utf-8', errors='ignore') / except: body = ''`
ladder, recording which step succeeded. -/
def decodePayloadChain (b : List Nat) : BodyDecode :=
  match utf8DecodeStrictStr b with
  | some s => .utf8 s
  | none =>
    match latin1Decode b with
    | some s => .latin1 s
    | none => .ignoreFallback ⟨utf8DecodeIgnore b⟩

/-- One MIME part as seen by `_extract_email_body`:
`part.get_content_type()`, `str(part.get("Content-Disposition"))` (the
string `"None"` when the header is absent) and
`part.get_payload(decode=True)`. -/
structure MessagePart where
  contentType : String
  contentDisposition : String
  payload : Option (List Nat)
deriving DecidableEq, Repr

/-- A parsed message as seen by `_extract_email_body`:
`is_multipart()`, the parts in `walk()` order, and the top-level
`get_payload(decode=True)` for the non-multipart case. -/
structure PyMessage where
  multipart : Bool
  parts : List MessagePart
  payload : Option (List Nat)
deriving DecidableEq, Repr

/-- `EmailService._extract_email_body` (lines 371–411): for a multipart
message, the loop decodes the first `text/plain` part whose
`Content-Disposition` does not contain `attachment` and then breaks (a
`None` payload leaves the body empty); for a non-multipart message the
single payload is decoded; the result is stripped.  The surrounding
`try/except` (which would yield `''`) guards operations that are total. -/
def extract_email_body (msg : PyMessage) : String :=
  let body :=
    if msg.multipart then
      match msg.parts.find? (fun p =>
          p.contentType == "text/plain" &&
            !(pyIn "attachment" p.contentDisposition)) with
      | some p =>
        match p.payload with
        | some b => (decodePayloadChain b).text
        | none => ""
      | none => ""
    else
      match msg.payload with
      | some b => (decodePayloadChain b).text
      | none => ""
  pyStrip body

/-! ## Identity hashing (`EmailService.generate_email_hash`) -/

/-- The `str`-coercion steps of `generate_email_hash`: a `bytes` value is
decoded with `.decode('utf-8')` (which may raise — `Except.error`), a `str`
value passes through `str(...)` unchanged. -/
def pyStrOrDecode : PyStrBytes → Except String String
  | .str s => .ok s
  | .bytes b =>
    match utf8DecodeStrictStr b with
    | some s => .ok s
    | none => .error "UnicodeDecodeError"

/-- `EmailService.generate_email_hash` (lines 434–458) applied to the
`id`/`subject`/`sender` field values and `str(email.date)` (the pipeline
guarantees `email.date` is a `datetime`, which is always truthy):
`md5(f"{subject}_{sender}_{date_str}_{email_id}".encode('utf-8')).hexdigest()`.
A `UnicodeDecodeError` from a `bytes` field propagates (`Except.error`). -/
def generate_email_hash (id subject sender : PyStrBytes) (dateStr : String) :
    Except String String := do
  let emailId ← pyStrOrDecode id
  let subjectS ← pyStrOrDecode subject
  let senderS ← pyStrOrDecode sender
  .ok (md5Hex (utf8Encode
    (subjectS ++ "_" ++ senderS ++ "_" ++ dateStr ++ "_" ++ emailId)))

/-- The id of a candidate whose `id` field is a string (`""` for a `bytes`
id, which only the error paths exercise). -/
def idStr (e : Email) : String :=
  match e.id with
  | .str s => s
  | .bytes _ => ""

/-- The combined pre-image string `f"{subject}_{sender}_{date_str}_{email_id}"`
whose MD5 is the content hash (for string-valued fields). -/
def emailHashInput (e : Email) : String :=
  e.subject ++ "_" ++ e.sender ++ "_" ++ e.dateStr ++ "_" ++ idStr e

/-- The content hash of a candidate with string-valued fields. -/
def emailHashOf (e : Email) : String :=
  md5Hex (utf8Encode (emailHashInput e))

/-! ## Persistence (`DatabaseManager`, `backend/models/db_models.py`)

The `emails` table is a list of rows in insertion order; `id` is the
`PRIMARY KEY`.  Nullable text columns hold `''` for Python `None` (exactly
the coalescing `save_email` performs before the `INSERT`). -/

/-- One row of the `emails` table (the columns `save_email` writes, minus
`tags`/`metadata`, which no claim touches and which no modelled code path
reads). -/
structure StoredEmail where
  id : String
  account_email : String
  subject : String
  sender : String
  dateStr : String
  body : String
  raw_data : String
  category : String
  main_category : String
  sub_category : String
  is_read : Bool
  is_starred : Bool
  is_archived : Bool
  is_spam : Bool
  is_trashed : Bool
  folder : String
  created_atStr : String
  email_hash : String
  verification_hash : String
  message_id : String
deriving DecidableEq, Repr

/-- The database state the ingestion core sees: the configured account
emails (`email_accounts.email`, unique) and the `emails` table. -/
structure DB where
  accounts : List String
  emails : List StoredEmail
deriving DecidableEq, Repr

/-- Python truthiness of an `Optional[str]`: `None` and `''` are falsy. -/
def pyTruthyOpt : Option String → Bool
  | none => false
  | some s => s ≠ ""

/-- The id-cleaning step of `save_email` (lines 435–441): a `bytes` id is
decoded (`Except.error` models the raised `UnicodeDecodeError`, caught by
`save_email`'s `except`); a string id of the shape `b'…'` is unwrapped with
`[2:-1]`; anything else passes through `str(...)` unchanged. -/
def cleanEmailId : PyStrBytes → Except String String
  | .bytes b =>
    match utf8DecodeStrictStr b with
    | some s => .ok s
    | none => .error "UnicodeDecodeError"
  | .str s =>
    if pyStartsWith "b'" s ∧ pyEndsWith "'" s then .ok (pyStrip2m1 s)
    else .ok s

/-- The row `save_email` would `INSERT` for an email with cleaned id
`rowId`. -/
def insertRow (rowId : String) (e : Email) : StoredEmail :=
  { id := rowId
    account_email := e.account_email
    subject := e.subject
    sender := e.sender
    dateStr := e.dateStr
    body := e.body
    raw_data := e.raw_data
    category := e.category
    main_category := e.main_category
    sub_category := e.sub_category
    is_read := e.is_read
    is_starred := e.is_starred
    is_archived := e.is_archived
    is_spam := e.is_spam
    is_trashed := e.is_trashed
    folder := e.folder
    created_atStr := e.created_atStr
    email_hash := e.email_hash.getD ""
    verification_hash := e.verification_hash.getD ""
    message_id := e.message_id.getD "" }

/-- The `ON DUPLICATE KEY UPDATE` clause of `save_email`: only the listed
columns are overwritten; `id`, `account_email`, `subject`, `sender`,
`date`, `body` and `raw_data` keep their stored values. -/
def upsertUpdate (row : StoredEmail) (e : Email) : StoredEmail :=
  { row with
    is_read := e.is_read
    category := e.category
    main_category := e.main_category
    sub_category := e.sub_category
    is_starred := e.is_starred
    is_archived := e.is_archived
    is_spam := e.is_spam
    is_trashed := e.is_trashed
    folder := e.folder
    created_atStr := e.created_atStr
    email_hash := e.email_hash.getD ""
    verification_hash := e.verification_hash.getD ""
    message_id := e.message_id.getD "" }

/-- `DatabaseManager.save_email` (lines 395–513): refuse when the owning
account is missing; clean the id (a decode error is caught, returning
`False`); then `INSERT … ON DUPLICATE KEY UPDATE` on the primary key `id`.
Returns the new state and the function's boolean result. -/
def save_email (db : DB) (e : Email) : DB × Bool :=
  if e.account_email ∉ db.accounts then (db, false)
  else
    match cleanEmailId e.id with
    | .error _ => (db, false)
    | .ok rowId =>
      if (db.emails.find? (fun r => r.id == rowId)).isSome then
        ({ db with emails :=
            db.emails.map (fun r => if r.id == rowId then upsertUpdate r e else r) },
          true)
      else
        ({ db with emails := db.emails ++ [insertRow rowId e] }, true)

/-- `DatabaseManager.email_exists` (lines 766–793): nothing to query when
both keys are falsy; otherwise `SELECT id FROM emails WHERE message_id = %s`
when the message id is truthy, `… WHERE email_hash = %s` otherwise — a
sequential preference, **not** a disjunction.  The stored id of the first
matching row is returned; `None` (and the falsy `False` of the guard, and
the `None` of the internal `except`) are all `none`. -/
def email_exists (db : DB) (messageId : Option String)
    (emailHash : Option String) : Option String :=
  if ¬pyTruthyOpt messageId ∧ ¬pyTruthyOpt emailHash then none
  else if pyTruthyOpt messageId then
    (db.emails.find? (fun r => r.message_id == messageId.getD "")).map (·.id)
  else
    (db.emails.find? (fun r => r.email_hash == emailHash.getD "")).map (·.id)

/-- The existence lookup the claim describes, written from the claim's (and
§4.2's) words: "query persistence for an existing record by (message
identifier) OR (content hash)" — a disjunctive match. -/
def claimedEmailExists (db : DB) (messageId : Option String)
    (emailHash : Option String) : Option String :=
  (db.emails.find? (fun r =>
      (pyTruthyOpt messageId && r.message_id == messageId.getD "") ||
        (pyTruthyOpt emailHash && r.email_hash == emailHash.getD ""))).map (·.id)

/-! ## The per-account ingestion pipeline
(`EmailService.fetch_emails_from_account`, lines 193–224) -/

/-- The body of the per-message loop of `fetch_emails_from_account` for a
candidate already produced by `_fetch_single_email`: hash → enhanced
categorization → dedup lookup → id reuse → save; a raised exception
(`generate_email_hash` is the only fallible step on string-field
candidates; `bytes` ids can make it raise) is caught by the per-message
`except`, which logs and `continue`s — the candidate is then neither saved
nor appended.  Returns the new state and `some` of the saved candidate when
it was appended to the `emails` result list (i.e. when no existing record
was found).

`process_candidate_with` is the tail of the loop body from the dedup
lookup's result onward: `if existing_email_id: email_obj.id =
existing_email_id`, then `save_email`, then `if not existing_email_id:
emails.append(email_obj)` (Python truthiness: `None` and `''` are both
falsy). -/
def process_candidate_with (db : DB) (e : Email) (existing : Option String) :
    DB × Option Email :=
  let e := if pyTruthyOpt existing then { e with id := .str (existing.getD "") }
    else e
  let (db', _) := save_email db e
  (db', if pyTruthyOpt existing then none else some e)

/-- The `try/except` surrounding `email_exists`'s query: a raised database
error is caught inside `email_exists` and `None` is returned, so the caller
treats the candidate as new. -/
def email_exists_guarded (queryResult : Except String (Option String)) :
    Option String :=
  match queryResult with
  | .ok v => v
  | .error _ => none

def process_candidate (db : DB) (e : Email) : DB × Option Email :=
  match generate_email_hash e.id (.str e.subject) (.str e.sender) e.dateStr with
  | .error _ => (db, none)
  | .ok h =>
    let e := { e with email_hash := some h }
    let (main, sub) := enhanced_categorize_email e
    let e := { e with
      main_category := main, sub_category := sub,
      category := main ++ "_" ++ sub }
    process_candidate_with db e (email_exists db e.message_id e.email_hash)

/-- One iteration of `fetch_emails_from_account`'s candidate loop, threaded
over the accumulated (state, new-email list) pair. -/
def pipeline_step (acc : DB × List Email) (c : Email) : DB × List Email :=
  let r := process_candidate acc.1 c
  (r.1, acc.2 ++ r.2.toList)

/-- `fetch_emails_from_account`'s loop over all candidates of one session,
accumulating the list of newly-saved emails the function returns. -/
def run_pipeline (db : DB) (cs : List Email) : DB × List Email :=
  cs.foldl pipeline_step (db, [])

/-! ## Orchestration (`fetch_emails` in `backend/routes/email_routes.py`,
lines 127–184, and `BackgroundTaskManager._fetch_emails` in
`backend/utils/background_tasks.py`, lines 78–98)

One account's interaction with the mail server is summarized by its
observable outcome: whether `test_account_connection` succeeded, and the
result of `fetch_emails_from_account` (the number of fetched emails, or the
message of the exception it raised). -/

/-- One configured account together with the outcome of its network
operations during a pass. -/
structure AccountRun where
  email : String
  testOk : Bool
  fetch : Except String Nat
deriving Repr

/-- The `fetch_results` aggregate dict of the manual fetch endpoint. -/
structure FetchResults where
  total_accounts : Nat
  successful_accounts : Nat
  failed_accounts : Nat
  total_emails_fetched : Nat
  errors : List String
deriving DecidableEq, Repr

/-- Did the account's whole iteration succeed (connection test passed and
the fetch did not raise)? -/
def AccountRun.success (a : AccountRun) : Bool :=
  a.testOk && a.fetch.toOption.isSome

/-- The error message the endpoint records for a failing account (`none`
for a succeeding one): `Connection failed for account: …` when the
connection test fails, `Error fetching from …` when the fetch raises. -/
def accountError (a : AccountRun) : Option String :=
  if !a.testOk then some ("Connection failed for account: " ++ a.email)
  else
    match a.fetch with
    | .ok _ => none
    | .error msg => some ("Error fetching from " ++ a.email ++ ": " ++ msg)

/-- One iteration of the endpoint's `for account in accounts` loop: a failed
connection test appends an error and increments `failed_accounts`
(`continue`); a raised fetch is caught by the per-account `except`, which
appends an error and increments `failed_accounts`; a successful fetch adds
its email count and increments `successful_accounts`.  Control always
reaches the next account. -/
def process_account (res : FetchResults) (a : AccountRun) : FetchResults :=
  if !a.testOk then
    { res with
      errors := res.errors ++ ["Connection failed for account: " ++ a.email]
      failed_accounts := res.failed_accounts + 1 }
  else
    match a.fetch with
    | .ok n =>
      { res with
        total_emails_fetched := res.total_emails_fetched + n
        successful_accounts := res.successful_accounts + 1 }
    | .error msg =>
      { res with
        errors := res.errors ++ ["Error fetching from " ++ a.email ++ ": " ++ msg]
        failed_accounts := res.failed_accounts + 1 }

/-- The manual fetch endpoint's per-account loop over all configured
accounts, starting from the zeroed `fetch_results` dict. -/
def fetch_emails_route (accounts : List AccountRun) : FetchResults :=
  accounts.foldl process_account
    { total_accounts := accounts.length, successful_accounts := 0,
      failed_accounts := 0, total_emails_fetched := 0, errors := [] }

/-- `BackgroundTaskManager._fetch_emails`: `for account in accounts: try:
fetch except: log, continue` — every account is attempted exactly once and
a raised fetch only affects its own iteration.  The trace records, per
account in order, whether its fetch succeeded. -/
def background_fetch (accounts : List AccountRun) : List (String × Bool) :=
  accounts.map (fun a => (a.email, a.fetch.toOption.isSome))

/-! ## Derived pipeline vocabulary used by the theorems -/

/-- The candidate as it stands after the hash/categorize mutations of the
loop body, just before the dedup lookup (for a string-id candidate). -/
def pipelinePost (c : Email) : Email :=
  let e := { c with email_hash := some (emailHashOf c) }
  let p := enhanced_categorize_email e
  { e with main_category := p.1, sub_category := p.2,
           category := p.1 ++ "_" ++ p.2 }

/-- The row a first (inserting) run stores for candidate `c`. -/
def rowOf (c : Email) : StoredEmail :=
  insertRow (idStr c) (pipelinePost c)

/-- A well-formed candidate with respect to database `accts`: its account is
configured, its id is a nonempty string not wrapped as stringified bytes. -/
def GoodCandidate (accts : List String) (c : Email) : Prop :=
  c.account_email ∈ accts ∧ c.id = .str (idStr c) ∧ idStr c ≠ "" ∧
    pyStartsWith "b'" (idStr c) = false

/-- Two candidates with distinct identity keys: distinct ids, distinct
message identifiers (when both are truthy) and distinct content hashes. -/
@[reducible]
def DistinctKeys (a b : Email) : Prop :=
  idStr a ≠ idStr b ∧
    (pyTruthyOpt a.message_id = true → pyTruthyOpt b.message_id = true →
      a.message_id ≠ b.message_id) ∧
    emailHashOf a ≠ emailHashOf b

/-- The number of emails one account contributes to
`total_emails_fetched`: its fetched count when the connection test passed
and the fetch returned, `0` otherwise. -/
def emailsFetched (a : AccountRun) : Nat :=
  if a.testOk then (match a.fetch with | .ok n => n | .error _ => 0) else 0

/-- Does any of the eleven hierarchical predicates of
`_enhanced_categorize_email` match the message?  The disjunction of the
chain's conditions, in order. -/
def matchesAnyPredicate (e : Email) : Bool :=
  let subject := pyLower e.subject
  let sender := pyLower e.sender
  let domain := extract_domain sender
  is_bank_email subject sender domain ||
    is_company_email subject sender domain ||
    is_support_email subject sender ||
    is_newsletter_email subject sender ||
    is_billing_email subject sender ||
    is_order_email subject sender ||
    is_social_email subject sender domain ||
    is_security_email subject sender ||
    is_meeting_email subject sender ||
    is_career_email subject sender ||
    is_notification_email subject sender

/-- A character of the class `[a-z0-9_]` (codepoints 97–122, 48–57, 95). -/
def isSlugChar (c : Char) : Bool :=
  (97 ≤ c.toNat ∧ c.toNat ≤ 122) ∨ (48 ≤ c.toNat ∧ c.toNat ≤ 57) ∨
    c.toNat = 95

/-- Every character of `s` is ASCII. -/
@[reducible]
def AsciiStr (s : String) : Prop :=
  ∀ c ∈ s.data, c.toNat < 128

/-! ## Concrete fixtures for counterexamples and witnesses -/

/-- A message whose text matches no keyword and no sender pattern of any
default flat rule, and no hierarchical predicate. -/
def noMatchEmail : Email :=
  { id := .str "1", account_email := "acct@example.com",
    subject := "hello world", sender := "someone@example.com",
    dateStr := "2024-01-01 00:00:00", body := "" }

/-- The §8 scenario message: subject `Invoice #1234 due` from
`billing@vendor.com`. -/
def invoiceEmail : Email :=
  { id := .str "1", account_email := "acct@example.com",
    subject := "Invoice #1234 due", sender := "billing@vendor.com",
    dateStr := "2024-01-01 00:00:00", body := "" }

/-- A predicate-free message whose sender display name contains the Unicode
alphanumeric `é`. -/
def cafeEmail : Email :=
  { id := .str "1", account_email := "acct@example.com",
    subject := "xyz", sender := "Café <x@y.com>",
    dateStr := "2024-01-01 00:00:00", body := "" }

/-- A candidate whose `id` is a bytes value that is not valid UTF-8, making
`generate_email_hash` raise. -/
def badIdEmail : Email :=
  { id := .bytes [0xff], account_email := "acct@example.com",
    subject := "hello", sender := "someone@example.com",
    dateStr := "2024-01-01 00:00:00", body := "" }

/-- A database with one configured account and no stored emails. -/
def dbOneAccount : DB := { accounts := ["acct@example.com"], emails := [] }

/-- Two candidates identical except for their provider-assigned sequence
number (the `id` field), with no protocol message identifier. -/
def seqEmail1 : Email :=
  { id := .str "1", account_email := "acct@example.com", subject := "hello",
    sender := "a@b.com", dateStr := "2024-01-01 00:00:00", body := "" }

/-- See `seqEmail1`. -/
def seqEmail2 : Email := { seqEmail1 with id := .str "2" }

/-- A stored row with message identifier `idA` and content hash `h`. -/
def storedRowA : StoredEmail :=
  { id := "10", account_email := "acct@example.com", subject := "s",
    sender := "x@y.com", dateStr := "2024-01-01 00:00:00", body := "",
    raw_data := "", category := "general", main_category := "general",
    sub_category := "general", is_read := false, is_starred := false,
    is_archived := false, is_spam := false, is_trashed := false,
    folder := "inbox", created_atStr := "", email_hash := "h",
    verification_hash := "", message_id := "idA" }

/-- A database holding `storedRowA`. -/
def dbWithRowA : DB :=
  { accounts := ["acct@example.com"], emails := [storedRowA] }

/-- A candidate whose message identifier matches `storedRowA` (while its
content hash does not). -/
def midEmail : Email :=
  { id := .str "99", account_email := "acct@example.com", subject := "s2",
    sender := "x@y.com", dateStr := "2024-01-02 00:00:00", body := "",
    message_id := some "idA" }

/-- Candidates with protocol message identifiers, for the idempotence
witness. -/
def midEmail1 : Email :=
  { id := .str "1", account_email := "acct@example.com", subject := "one",
    sender := "a@b.com", dateStr := "2024-01-01 00:00:00", body := "",
    message_id := some "m1" }

/-- See `midEmail1`. -/
def midEmail2 : Email :=
  { id := .str "2", account_email := "acct@example.com", subject := "two",
    sender := "a@b.com", dateStr := "2024-01-01 00:00:01", body := "",
    message_id := none }

/-- The raw RFC 2047 encoded word declaring charset `utf-8` over the single
byte `0xFF`, which is not valid UTF-8; `decode_header` parses it into one
byte segment with declared charset `utf-8`. -/
def badHeader : String := "=?utf-8?B?/w==?="

/-- The parsed segments of `badHeader`. -/
def badHeaderParts : List HeaderSeg := [.bytesPart [0xff] (some "utf-8")]

/-! # Helper lemmas -/

theorem mapOption_eq_none {α β : Type} (f : α → Option β) (l : List α) (x : α)
    (hx : x ∈ l) (hfx : f x = none) : mapOption f l = none := by
  induction l with
  | nil => cases hx
  | cons a t ih =>
    rcases List.mem_cons.mp hx with h | h
    · subst h; simp [mapOption, hfx]
    · cases hfa : f a <;> simp [mapOption, hfa, ih h]

/-! # Claim theorems -/

/-- **C1** (code bug).  The claim states that `categorize_email` scores each
rule by counting its own keyword/sender-pattern matches and returns the
default category `'general'` whenever nothing matches.  In the code,
`_calculate_category_score` fetches its compiled patterns under the key
`rules.get('category', '')`; the rule dicts carry no `'category'` key, so
the pattern lists are always empty, every rule's score degenerates to the
constant priority bonus `(5 − priority)·0.5 > 0`, and the maximal constant
belongs to `security` (priority 0).  Hence the embedded code returns
`"security"` for **every** email — also for `noMatchEmail`, where the
claimed scoring returns `"general"`. -/
theorem claim_C1_weighted_scoring_bug :
    (∀ e : Email, categorize_email defaultCategoryRules e = "security") ∧
    claimedCategorizeEmail defaultCategoryRules noMatchEmail = "general" := by
  constructor
  · intro e
    simp [categorize_email, defaultCategoryRules, calculate_category_score,
      compiledPatternsGet, ruleGetCategory, patternsKeywords,
      patternsSenderPatterns, maxBySecond, List.find?, List.filter]
    norm_num
  · decide

/-- **C2** (counterexample).  The claim calls the dedup lookup disjunctive:
a record is found "if either the message identifier matches or the content
hash matches".  With a stored record whose hash matches the candidate's but
whose message identifier differs, `email_exists` returns nothing (it
queries only by message identifier when one is present), while the
claimed disjunctive lookup finds the record. -/
theorem claim_C2_counterexample :
    email_exists dbWithRowA (some "idB") (some "h") = none ∧
    claimedEmailExists dbWithRowA (some "idB") (some "h") = some "10" ∧
    storedRowA.email_hash = "h" := by decide

/-- **C6** (counterexample).  The §8 scenario message (`Invoice #1234 due`
from `billing@vendor.com`) is not assigned `main_category = "billing"`: the
company predicate (`'invoice' in subject`) precedes the billing predicate in
`_enhanced_categorize_email`'s chain and wins. -/
theorem claim_C6_counterexample :
    (enhanced_categorize_email invoiceEmail).1 ≠ "billing" ∧
    enhanced_categorize_email invoiceEmail = ("company", "vendor") := by decide

/-- **C6** (amended).  The scenario message is assigned
`("company", "vendor")`; the billing predicate would match its subject too,
but the earlier company predicate masks it. -/
theorem claim_C6_company_masks_billing :
    enhanced_categorize_email invoiceEmail = ("company", "vendor") ∧
    is_company_email (pyLower invoiceEmail.subject) (pyLower invoiceEmail.sender)
      (extract_domain (pyLower invoiceEmail.sender)) = true ∧
    is_billing_email (pyLower invoiceEmail.subject)
      (pyLower invoiceEmail.sender) = true := by decide

/-- **C7** (counterexample).  For the predicate-free message from
`Café <x@y.com>` the default branch returns the slug `café`: Python's
Unicode-aware `isalnum` keeps `é`, so the slug is *not* contained in
`[a-z0-9_]` as the claim states. -/
theorem claim_C7_counterexample :
    enhanced_categorize_email cafeEmail = ("general", "café") ∧
    "café".data.all isSlugChar = false := by decide

/-- **C5** (counterexample).  The claim says a candidate whose identity-hash
computation fails is "treated as new and still saved".  For a candidate
whose id is the non-UTF-8 byte `0xFF`, `generate_email_hash` raises
(`UnicodeDecodeError`), the per-message `except` catches it and
`continue`s: the database is unchanged — the candidate is dropped, not
saved. -/
theorem claim_C5_counterexample :
    generate_email_hash badIdEmail.id (.str badIdEmail.subject)
      (.str badIdEmail.sender) badIdEmail.dateStr =
        .error "UnicodeDecodeError" ∧
    process_candidate dbOneAccount badIdEmail = (dbOneAccount, none) :=
  ⟨rfl, rfl⟩

set_option maxRecDepth 8000 in
/-- **C3** (counterexample).  Two candidates identical in subject, sender
and timestamp but with different provider sequence numbers (`id` `"1"` vs
`"2"`) do **not** collapse: the sequence number is part of the hash
pre-image, their MD5 content hashes differ, and ingesting both into an
empty store yields two rows (both returned as new), not one. -/
theorem claim_C3_counterexample :
    emailHashOf seqEmail1 ≠ emailHashOf seqEmail2 ∧
    (run_pipeline dbOneAccount [seqEmail1, seqEmail2]).1.emails.length = 2 ∧
    (run_pipeline dbOneAccount [seqEmail1, seqEmail2]).2.length = 2 := by
  decide

/-- **C8** (counterexample).  The claim says a wrongly declared charset
falls back to "a permissive decode that replaces undecodable bytes".  For
the encoded word declaring `utf-8` over the byte `0xFF`, `_decode_header`
instead returns the **raw encoded header unchanged** — which is neither the
byte-dropping permissive decode (`''`) nor a replacement-character decode
(`'�'`). -/
theorem claim_C8_counterexample :
    decode_header_fallback badHeader badHeaderParts = badHeader ∧
    badHeader ≠ String.mk (utf8DecodeIgnore [0xff]) ∧
    badHeader ≠ "�" := by decide

/-- **C8** (amended).  Header decoding is total and never `None`-valued: a
falsy/missing header yields `''`; but when some segment's declared charset
fails to decode it, the exception is caught and `_decode_header` returns
the raw header unchanged while `_decode_email_header` returns `''` — no
per-segment permissive fallback takes place. -/
theorem claim_C8_header_decode_amended (header : String) (parts : List HeaderSeg)
    (hne : header ≠ "")
    (hbad : ∃ b cs, HeaderSeg.bytesPart b (some cs) ∈ parts ∧
      pyCharsetDecode cs b = none) :
    decode_header_fallback header parts = header ∧
    decode_email_header (some header) parts = "" ∧
    (∀ parts', decode_header_fallback "" parts' = "" ∧
      decode_email_header none parts' = "") := by
  obtain ⟨b, cs, hmem, hdec⟩ := hbad
  have h1 : mapOption decodeSegDeclared parts = none :=
    mapOption_eq_none _ parts _ hmem (by simp [decodeSegDeclared, hdec])
  have h2 : mapOption decodeSegOrUtf8 parts = none :=
    mapOption_eq_none _ parts _ hmem (by simp [decodeSegOrUtf8, hdec])
  refine ⟨?_, ?_, fun parts' => ⟨rfl, rfl⟩⟩
  · unfold decode_header_fallback
    rw [if_neg hne, h1]
  · unfold decode_email_header
    rw [h2]

/-- Witness for `claim_C8_header_decode_amended` at the concrete header
`=?utf-8?B?/w==?=`. -/
theorem claim_C8_witness :
    decode_header_fallback badHeader badHeaderParts = badHeader ∧
    decode_email_header (some badHeader) badHeaderParts = "" :=
  ⟨(claim_C8_header_decode_amended badHeader badHeaderParts (by decide)
      ⟨[0xff], "utf-8", by decide, by decide⟩).1,
   (claim_C8_header_decode_amended badHeader badHeaderParts (by decide)
      ⟨[0xff], "utf-8", by decide, by decide⟩).2.1⟩

/-- **C10** (confirmed).  For every genuine byte payload the decode ladder
of `_extract_email_body` succeeds no later than its Latin-1 step (Latin-1
decoding is total on bytes), so the `utf-8`-with-`ignore` step and the
final log-and-empty branch are unreachable for present payloads; and the
extracted body is exactly the stripped text of the ladder's result. -/
theorem claim_C10_body_decode_total (b : List Nat) (hb : ∀ x ∈ b, x < 256) :
    ((∃ s, decodePayloadChain b = .utf8 s) ∨
      (∃ s, decodePayloadChain b = .latin1 s)) ∧
    decodePayloadChain b ≠ .failed ∧
    (∀ msg : PyMessage, msg.multipart = false → msg.payload = some b →
      extract_email_body msg = pyStrip (decodePayloadChain b).text) := by
  have hlat : latin1Decode b = some ⟨b.map Char.ofNat⟩ := by
    unfold latin1Decode
    rw [if_pos (List.all_eq_true.mpr fun x hx => decide_eq_true (hb x hx))]
  refine ⟨?_, ?_, ?_⟩
  · unfold decodePayloadChain
    cases hu : utf8DecodeStrictStr b with
    | some s => exact .inl ⟨s, rfl⟩
    | none => exact .inr ⟨_, by rw [hlat]⟩
  · unfold decodePayloadChain
    cases hu : utf8DecodeStrictStr b <;> simp [hlat]
  · intro msg h1 h2
    unfold extract_email_body
    rw [h1, h2]
    simp

/-- Witness for `claim_C10_body_decode_total` on the payload
`[0xFF, 0x41]`, which is invalid UTF-8 and decodes at the Latin-1 step. -/
theorem claim_C10_witness :
    (∃ s, decodePayloadChain [255, 65] = .utf8 s) ∨
      (∃ s, decodePayloadChain [255, 65] = .latin1 s) :=
  (claim_C10_body_decode_total [255, 65] (by decide)).1

set_option linter.unnecessarySeqFocus false in
theorem fetch_route_fold (runs : List AccountRun) :
    ∀ init : FetchResults,
      (runs.foldl process_account init).total_accounts = init.total_accounts ∧
      (runs.foldl process_account init).successful_accounts =
        init.successful_accounts + (runs.filter (·.success)).length ∧
      (runs.foldl process_account init).failed_accounts =
        init.failed_accounts + (runs.filter (fun a => !a.success)).length ∧
      (runs.foldl process_account init).errors =
        init.errors ++ runs.filterMap accountError ∧
      (runs.foldl process_account init).total_emails_fetched =
        init.total_emails_fetched + (runs.map emailsFetched).sum := by
  induction runs with
  | nil => intro init; simp
  | cons a rest ih =>
    intro init
    obtain ⟨h1, h2, h3, h4, h5⟩ := ih (process_account init a)
    cases hT : a.testOk with
    | false =>
      refine ⟨?_, ?_, ?_, ?_, ?_⟩ <;>
        simp_all [process_account, AccountRun.success, accountError,
          emailsFetched, List.foldl_cons, List.filter_cons,
          List.filterMap_cons, Except.toOption] <;> omega
    | true =>
      cases hF : a.fetch with
      | ok n =>
        refine ⟨?_, ?_, ?_, ?_, ?_⟩ <;>
          simp_all [process_account, AccountRun.success, accountError,
            emailsFetched, List.foldl_cons, List.filter_cons,
            List.filterMap_cons, Except.toOption] <;> omega
      | error msg =>
        refine ⟨?_, ?_, ?_, ?_, ?_⟩ <;>
          simp_all [process_account, AccountRun.success, accountError,
            emailsFetched, List.foldl_cons, List.filter_cons,
            List.filterMap_cons, Except.toOption] <;> omega

/-- **C9** (confirmed).  For every configured account list, the manual
fetch endpoint's loop reaches every account regardless of earlier
failures: `successful_accounts` counts exactly the accounts whose
connection test and fetch both succeeded — over the whole list, including
accounts after a failing one — `failed_accounts` counts every failing
account exactly once, `errors` holds exactly one recorded message per
failing account (in order), and `total_emails_fetched` sums the successful
accounts' counts.  The background pass likewise attempts every account
exactly once, in order. -/
theorem claim_C9_per_account_isolation (runs : List AccountRun) :
    (fetch_emails_route runs).total_accounts = runs.length ∧
    (fetch_emails_route runs).successful_accounts =
      (runs.filter (·.success)).length ∧
    (fetch_emails_route runs).failed_accounts =
      (runs.filter (fun a => !a.success)).length ∧
    (fetch_emails_route runs).errors = runs.filterMap accountError ∧
    (fetch_emails_route runs).total_emails_fetched =
      (runs.map emailsFetched).sum ∧
    (background_fetch runs).map Prod.fst = runs.map AccountRun.email := by
  obtain ⟨h1, h2, h3, h4, h5⟩ := fetch_route_fold runs
    { total_accounts := runs.length, successful_accounts := 0,
      failed_accounts := 0, total_emails_fetched := 0, errors := [] }
  exact ⟨h1, by simpa using h2, by simpa using h3, by simpa using h4,
    by simpa using h5, by simp [background_fetch]⟩

theorem md5Bytes_ne_nil (bs : List Nat) : md5Bytes bs ≠ [] := by
  unfold md5Bytes
  set st := (chunks64 (md5Pad bs)).foldl md5Block
    (0x67452301, 0xefcdab89, 0x98badcfe, 0x10325476) with hst
  rcases st with ⟨a, b, c, d⟩
  simp [wordToBytesLE]

theorem md5Hex_ne_empty (bs : List Nat) : md5Hex bs ≠ "" := by
  have h1 : (md5Hex bs).data =
      (md5Bytes bs).foldr (fun b acc => byteHex b ++ acc) [] := rfl
  intro he
  rw [he] at h1
  cases h : md5Bytes bs with
  | nil => exact md5Bytes_ne_nil bs h
  | cons b t =>
    rw [h] at h1
    simp [byteHex] at h1

theorem find_eq_of_unique {α : Type} (p : α → Bool) (l : List α) (x : α)
    (hx : x ∈ l) (hp : p x = true) (huniq : ∀ y ∈ l, p y = true → y = x) :
    l.find? p = some x := by
  induction l with
  | nil => cases hx
  | cons a t ih =>
    by_cases ha : p a = true
    · have hax : a = x := huniq a (List.mem_cons_self a t) ha
      subst hax
      simp [List.find?_cons, ha]
    · have hxt : x ∈ t := by
        rcases List.mem_cons.mp hx with h | h
        · subst h; exact absurd hp ha
        · exact h
      rw [List.find?_cons]
      simp only [Bool.not_eq_true] at ha
      rw [ha]
      exact ih hxt (fun y hy hpy => huniq y (List.mem_cons_of_mem a hy) hpy)

theorem email_id_update_self (e : Email) (x : PyStrBytes) (h : e.id = x) :
    { e with id := x } = e := by
  cases e; simp_all

theorem db_emails_update_self (db : DB) (l : List StoredEmail)
    (h : db.emails = l) : { db with emails := l } = db := by
  cases db; simp_all

theorem upsert_insertRow_self (i : String) (e : Email) :
    upsertUpdate (insertRow i e) e = insertRow i e := by
  simp [upsertUpdate, insertRow]

theorem process_candidate_str (db : DB) (c : Email) (h : c.id = .str (idStr c)) :
    process_candidate db c =
      process_candidate_with db (pipelinePost c)
        (email_exists db c.message_id (some (emailHashOf c))) := by
  unfold process_candidate pipelinePost
  rw [h]
  rfl

theorem pipelinePost_id (c : Email) : (pipelinePost c).id = c.id := rfl

theorem pipelinePost_message_id (c : Email) :
    (pipelinePost c).message_id = c.message_id := rfl

theorem pipelinePost_account (c : Email) :
    (pipelinePost c).account_email = c.account_email := rfl

theorem rowOf_id (c : Email) : (rowOf c).id = idStr c := rfl

theorem rowOf_message_id (c : Email) :
    (rowOf c).message_id = c.message_id.getD "" := rfl

theorem rowOf_email_hash (c : Email) :
    (rowOf c).email_hash = emailHashOf c := rfl

theorem distinctKeys_symm : Symmetric DistinctKeys := by
  intro a b h
  exact ⟨h.1.symm, fun hb ha => (h.2.1 ha hb ∘ Eq.symm), h.2.2.symm⟩

theorem mid_match (c d : Email) (hm : pyTruthyOpt c.message_id = true)
    (heq : d.message_id.getD "" = c.message_id.getD "") :
    pyTruthyOpt d.message_id = true ∧ d.message_id = c.message_id := by
  cases hc : c.message_id with
  | none => rw [hc] at hm; simp [pyTruthyOpt] at hm
  | some v =>
    have hv : v ≠ "" := by
      rw [hc] at hm; simpa [pyTruthyOpt] using hm
    rw [hc] at heq
    cases hd : d.message_id with
    | none => rw [hd] at heq; simp at heq; exact absurd heq.symm hv
    | some w =>
      rw [hd] at heq; simp at heq
      subst heq
      exact ⟨by simp [pyTruthyOpt, hd, hv], rfl⟩

theorem emailHashOf_truthy (c : Email) :
    pyTruthyOpt (some (emailHashOf c)) = true := by
  simp only [pyTruthyOpt]
  exact decide_eq_true (md5Hex_ne_empty _)

theorem email_exists_on_rows (A : List String) (cs : List Email) (c : Email)
    (hdist : cs.Pairwise DistinctKeys) (hc : c ∈ cs) :
    email_exists ⟨A, cs.map rowOf⟩ c.message_id (some (emailHashOf c)) =
      some (idStr c) := by
  by_cases hm : pyTruthyOpt c.message_id = true
  · unfold email_exists
    rw [if_neg (by simp [hm]), if_pos hm]
    have hfind : (cs.map rowOf).find?
        (fun r => r.message_id == c.message_id.getD "") = some (rowOf c) := by
      apply find_eq_of_unique _ _ (rowOf c) (List.mem_map_of_mem rowOf hc)
      · simp [rowOf_message_id]
      · intro y hy hpy
        obtain ⟨d, hd, rfl⟩ := List.mem_map.mp hy
        have heq : d.message_id.getD "" = c.message_id.getD "" := by
          simpa [rowOf_message_id] using hpy
        by_cases hdc : d = c
        · subst hdc; rfl
        · obtain ⟨hdt, hdm⟩ := mid_match c d hm heq
          exact absurd hdm ((hdist.forall distinctKeys_symm hd hc hdc).2.1 hdt hm)
    rw [hfind]
    simp [rowOf_id]
  · unfold email_exists
    rw [if_neg (by simp [emailHashOf_truthy c]), if_neg hm]
    have hfind : (cs.map rowOf).find?
        (fun r => r.email_hash == (some (emailHashOf c)).getD "") =
          some (rowOf c) := by
      apply find_eq_of_unique _ _ (rowOf c) (List.mem_map_of_mem rowOf hc)
      · simp [rowOf_email_hash]
      · intro y hy hpy
        obtain ⟨d, hd, rfl⟩ := List.mem_map.mp hy
        have heq : emailHashOf d = emailHashOf c := by
          simpa [rowOf_email_hash] using hpy
        by_cases hdc : d = c
        · subst hdc; rfl
        · exact absurd heq (hdist.forall distinctKeys_symm hd hc hdc).2.2
    rw [hfind]
    simp [rowOf_id]

theorem email_exists_none_of_no_key (db : DB) (c : Email)
    (hmid : ∀ r ∈ db.emails, ¬(r.message_id = c.message_id.getD "" ∧
      pyTruthyOpt c.message_id = true))
    (hhash : ∀ r ∈ db.emails, r.email_hash ≠ emailHashOf c) :
    email_exists db c.message_id (some (emailHashOf c)) = none := by
  by_cases hm : pyTruthyOpt c.message_id = true
  · unfold email_exists
    rw [if_neg (by simp [hm]), if_pos hm]
    have : db.emails.find? (fun r => r.message_id == c.message_id.getD "") = none := by
      rw [List.find?_eq_none]
      intro r hr
      simp only [beq_iff_eq]
      exact fun he => hmid r hr ⟨he, hm⟩
    rw [this]
    rfl
  · unfold email_exists
    rw [if_neg (by simp [emailHashOf_truthy c]), if_neg hm]
    have : db.emails.find?
        (fun r => r.email_hash == (some (emailHashOf c)).getD "") = none := by
      rw [List.find?_eq_none]
      intro r hr
      simpa using hhash r hr
    rw [this]
    rfl

theorem save_email_update (db : DB) (e : Email) (i : String)
    (hacct : e.account_email ∈ db.accounts)
    (hcid : cleanEmailId e.id = .ok i)
    (hfound : (db.emails.find? (fun r => r.id == i)).isSome = true) :
    save_email db e =
      ({ db with emails :=
          db.emails.map (fun r => if r.id == i then upsertUpdate r e else r) },
        true) := by
  unfold save_email
  rw [if_neg (by simpa using hacct), hcid]
  dsimp only
  rw [if_pos hfound]

theorem save_email_insert (db : DB) (e : Email) (i : String)
    (hacct : e.account_email ∈ db.accounts)
    (hcid : cleanEmailId e.id = .ok i)
    (hnone : db.emails.find? (fun r => r.id == i) = none) :
    save_email db e = ({ db with emails := db.emails ++ [insertRow i e] }, true) := by
  unfold save_email
  rw [if_neg (by simpa using hacct), hcid]
  dsimp only
  rw [if_neg (by simp [hnone])]

theorem cleanEmailId_clean (s : String) (h : pyStartsWith "b'" s = false) :
    cleanEmailId (PyStrBytes.str s) = .ok s := by
  simp [cleanEmailId, h]

theorem process_on_full (A : List String) (cs : List Email) (c : Email)
    (hgood : ∀ d ∈ cs, GoodCandidate A d)
    (hdist : cs.Pairwise DistinctKeys) (hc : c ∈ cs) :
    process_candidate ⟨A, cs.map rowOf⟩ c = (⟨A, cs.map rowOf⟩, none) := by
  obtain ⟨hacct, hid, hne, hclean⟩ := hgood c hc
  rw [process_candidate_str _ _ hid, email_exists_on_rows A cs c hdist hc]
  unfold process_candidate_with
  have htr : pyTruthyOpt (some (idStr c)) = true := by simp [pyTruthyOpt, hne]
  rw [htr]
  simp only [if_true, Option.getD_some]
  have hupd : { pipelinePost c with id := PyStrBytes.str (idStr c) } =
      pipelinePost c :=
    email_id_update_self _ _ (by rw [pipelinePost_id, hid])
  rw [hupd]
  have hpid : (pipelinePost c).id = PyStrBytes.str (idStr c) := by
    rw [pipelinePost_id, hid]
  have hfind : (cs.map rowOf).find? (fun r => r.id == idStr c) =
      some (rowOf c) := by
    apply find_eq_of_unique _ _ (rowOf c) (List.mem_map_of_mem rowOf hc)
    · simp [rowOf_id]
    · intro y hy hpy
      obtain ⟨d, hd, rfl⟩ := List.mem_map.mp hy
      have heq : idStr d = idStr c := by simpa [rowOf_id] using hpy
      by_cases hdc : d = c
      · subst hdc; rfl
      · exact absurd heq (hdist.forall distinctKeys_symm hd hc hdc).1
  have hsave := save_email_update ⟨A, cs.map rowOf⟩ (pipelinePost c) (idStr c)
    (by simpa [pipelinePost_account] using hacct)
    (by rw [hpid]; exact cleanEmailId_clean _ hclean)
    (by rw [hfind]; rfl)
  rw [hsave]
  have hmap : (cs.map rowOf).map
      (fun r => if r.id == idStr c then upsertUpdate r (pipelinePost c) else r) =
        cs.map rowOf := by
    rw [List.map_map]
    apply List.map_congr_left
    intro d hd
    by_cases hdc : d = c
    · subst hdc
      simp [Function.comp, rowOf_id, rowOf, upsert_insertRow_self]
    · have hne' : idStr d ≠ idStr c := (hdist.forall distinctKeys_symm hd hc hdc).1
      simp [Function.comp, rowOf_id, hne']
  rw [hmap]

theorem process_candidate_insert (A : List String) (pre : List Email) (c : Email)
    (hgoodc : GoodCandidate A c)
    (hdk : ∀ d ∈ pre, DistinctKeys d c) :
    process_candidate ⟨A, pre.map rowOf⟩ c =
      (⟨A, (pre ++ [c]).map rowOf⟩, some (pipelinePost c)) := by
  obtain ⟨hacct, hid, hne, hclean⟩ := hgoodc
  have hnone : email_exists ⟨A, pre.map rowOf⟩ c.message_id
      (some (emailHashOf c)) = none := by
    apply email_exists_none_of_no_key
    · intro r hr
      obtain ⟨d, hd, rfl⟩ := List.mem_map.mp hr
      rintro ⟨heq, hm⟩
      obtain ⟨hdt, hdm⟩ := mid_match c d hm (by simpa [rowOf_message_id] using heq)
      exact (hdk d hd).2.1 hdt hm hdm
    · intro r hr
      obtain ⟨d, hd, rfl⟩ := List.mem_map.mp hr
      simpa [rowOf_email_hash] using (hdk d hd).2.2
  rw [process_candidate_str _ _ hid, hnone]
  unfold process_candidate_with
  have hfalse : pyTruthyOpt none = false := rfl
  rw [hfalse]
  simp only [Bool.false_eq_true, if_false]
  have hsave := save_email_insert ⟨A, pre.map rowOf⟩ (pipelinePost c) (idStr c)
    (by simpa [pipelinePost_account] using hacct)
    (by rw [pipelinePost_id, hid]; exact cleanEmailId_clean _ hclean)
    (by rw [List.find?_eq_none]
        intro r hr
        obtain ⟨d, hd, rfl⟩ := List.mem_map.mp hr
        simpa [rowOf_id] using (hdk d hd).1)
  rw [hsave]
  simp [rowOf]

theorem pipeline_inserts (A : List String) (cs : List Email) :
    ∀ (pre : List Email) (acc : List Email),
      (∀ d ∈ pre ++ cs, GoodCandidate A d) →
      ((pre ++ cs).Pairwise DistinctKeys) →
      cs.foldl pipeline_step (⟨A, pre.map rowOf⟩, acc) =
        (⟨A, (pre ++ cs).map rowOf⟩, acc ++ cs.map pipelinePost) := by
  induction cs with
  | nil => intro pre acc _ _; simp
  | cons c rest ih =>
    intro pre acc hgood hdist
    have hdk : ∀ d ∈ pre, DistinctKeys d c := by
      intro d hd
      exact (List.pairwise_append.mp hdist).2.2 d hd c (by simp)
    have hstep : pipeline_step (⟨A, pre.map rowOf⟩, acc) c =
        (⟨A, (pre ++ [c]).map rowOf⟩, acc ++ [pipelinePost c]) := by
      unfold pipeline_step
      rw [process_candidate_insert A pre c (hgood c (by simp)) hdk]
      simp
    rw [List.foldl_cons, hstep]
    have hassoc : pre ++ c :: rest = (pre ++ [c]) ++ rest := by simp
    have := ih (pre ++ [c]) (acc ++ [pipelinePost c])
      (by rw [← hassoc]; exact hgood) (by rw [← hassoc]; exact hdist)
    rw [this, ← hassoc]
    simp

theorem pipeline_second_run (A : List String) (cs : List Email)
    (hgood : ∀ d ∈ cs, GoodCandidate A d)
    (hdist : cs.Pairwise DistinctKeys) :
    ∀ (cs' : List Email) (acc : List Email), (∀ c ∈ cs', c ∈ cs) →
      cs'.foldl pipeline_step (⟨A, cs.map rowOf⟩, acc) =
        (⟨A, cs.map rowOf⟩, acc) := by
  intro cs'
  induction cs' with
  | nil => intro acc _; rfl
  | cons c rest ih =>
    intro acc hsub
    have hstep : pipeline_step (⟨A, cs.map rowOf⟩, acc) c =
        (⟨A, cs.map rowOf⟩, acc) := by
      unfold pipeline_step
      rw [process_on_full A cs c hgood hdist (hsub c (by simp))]
      simp
    rw [List.foldl_cons, hstep]
    exact ih acc (fun x hx => hsub x (List.mem_cons_of_mem c hx))

theorem string_append_cancel (a b c : String) (h : a ++ b = a ++ c) : b = c := by
  have hd : a.data ++ b.data = a.data ++ c.data := by
    rw [← String.data_append, ← String.data_append, h]
  exact String.ext (List.append_cancel_left hd)

/-- **C4** (confirmed).  Running the per-account pipeline twice over the
same unchanged candidate list (distinct sequence ids, distinct truthy
message identifiers, distinct content hashes — what one mailbox session
yields) starting from an empty store: the first run inserts every candidate
and returns them all as new; the second run finds every candidate by its
message identifier (or, lacking one, its content hash), reuses the stored
id, saves through the `ON DUPLICATE KEY` update path, leaves the database
state exactly unchanged, and returns zero new emails. -/
theorem claim_C4_pipeline_idempotent (db : DB) (cs : List Email)
    (hemp : db.emails = [])
    (hgood : ∀ c ∈ cs, GoodCandidate db.accounts c)
    (hdist : cs.Pairwise DistinctKeys) :
    (run_pipeline db cs).2.length = cs.length ∧
    (run_pipeline db cs).1.emails.length = cs.length ∧
    (run_pipeline (run_pipeline db cs).1 cs).1 = (run_pipeline db cs).1 ∧
    (run_pipeline (run_pipeline db cs).1 cs).2 = [] := by
  obtain ⟨A, dbe⟩ := db
  dsimp only at hemp hgood
  subst hemp
  have h1 : run_pipeline ⟨A, []⟩ cs = (⟨A, cs.map rowOf⟩, cs.map pipelinePost) := by
    unfold run_pipeline
    have := pipeline_inserts A cs [] [] (by simpa using hgood) (by simpa using hdist)
    simpa using this
  have h2 : run_pipeline ⟨A, cs.map rowOf⟩ cs = (⟨A, cs.map rowOf⟩, []) :=
    pipeline_second_run A cs hgood hdist cs [] (fun c hc => hc)
  rw [h1]
  exact ⟨by simp, by simp, by rw [show (⟨A, cs.map rowOf⟩, cs.map pipelinePost).1 =
    (⟨A, cs.map rowOf⟩ : DB) from rfl, h2], by rw [show (⟨A, cs.map rowOf⟩,
    cs.map pipelinePost).1 = (⟨A, cs.map rowOf⟩ : DB) from rfl, h2]⟩

/-- Witness for `claim_C4_pipeline_idempotent` on two concrete candidates
(one with a protocol message identifier, one without). -/
theorem claim_C4_witness :
    (run_pipeline dbOneAccount [midEmail1, midEmail2]).2.length = 2 ∧
    (run_pipeline (run_pipeline dbOneAccount [midEmail1, midEmail2]).1
      [midEmail1, midEmail2]).1 =
      (run_pipeline dbOneAccount [midEmail1, midEmail2]).1 ∧
    (run_pipeline (run_pipeline dbOneAccount [midEmail1, midEmail2]).1
      [midEmail1, midEmail2]).2 = [] := by
  have h := claim_C4_pipeline_idempotent dbOneAccount [midEmail1, midEmail2]
    rfl
    (by intro c hc
        rcases List.mem_cons.mp hc with h | h
        · subst h; exact ⟨by decide, by decide, by decide, by decide⟩
        · rcases List.mem_singleton.mp h with rfl
          exact ⟨by decide, by decide, by decide, by decide⟩)
    (by decide)
  exact ⟨h.1, h.2.2.1, h.2.2.2⟩

/-- **C3** (amended).  The content hash's pre-image is
`f"{subject}_{sender}_{date}_{id}"` where `id` **is** the provider-assigned
sequence number, so two candidates agreeing on subject/sender/timestamp but
differing in sequence number have *different* hash pre-images (they do not
collapse — see the counterexample); collapse happens when the sequence
number also agrees: ingesting the same candidate twice yields one stored
row, the second occurrence resolving to an update. -/
theorem claim_C3_sequence_id_in_hash (db : DB) (e : Email)
    (hemp : db.emails = [])
    (hgood : GoodCandidate db.accounts e) :
    (∀ e₂ : Email, e₂.subject = e.subject → e₂.sender = e.sender →
      e₂.dateStr = e.dateStr → idStr e₂ ≠ idStr e →
      emailHashInput e₂ ≠ emailHashInput e) ∧
    (run_pipeline db [e, e]).1.emails.length = 1 ∧
    (run_pipeline db [e, e]).2.length = 1 := by
  refine ⟨?_, ?_⟩
  · intro e₂ h1 h2 h3 h4 heq
    apply h4
    unfold emailHashInput at heq
    rw [h1, h2, h3] at heq
    exact string_append_cancel _ _ _ heq
  · obtain ⟨A, dbe⟩ := db
    dsimp only at hemp hgood
    subst hemp
    have hins := process_candidate_insert A [] e hgood (by simp)
    simp only [List.map_nil, List.nil_append, List.map_cons] at hins
    have hfull := process_on_full A [e] e
      (by intro d hd; rcases List.mem_singleton.mp hd with rfl; exact hgood)
      (by simp) (List.mem_singleton_self e)
    simp only [List.map_cons, List.map_nil] at hfull
    unfold run_pipeline
    simp only [List.foldl_cons, List.foldl_nil]
    unfold pipeline_step
    rw [show ((⟨A, []⟩ : DB), ([] : List Email)).1 = (⟨A, []⟩ : DB) from rfl,
      hins]
    dsimp only
    rw [hfull]
    simp

/-- Witness for `claim_C3_sequence_id_in_hash` on a concrete candidate. -/
theorem claim_C3_witness :
    (seqEmail2.subject = seqEmail1.subject → seqEmail2.sender = seqEmail1.sender →
      seqEmail2.dateStr = seqEmail1.dateStr → idStr seqEmail2 ≠ idStr seqEmail1 →
      emailHashInput seqEmail2 ≠ emailHashInput seqEmail1) ∧
    (run_pipeline dbOneAccount [seqEmail1, seqEmail1]).1.emails.length = 1 ∧
    (run_pipeline dbOneAccount [seqEmail1, seqEmail1]).2.length = 1 := by
  have h := claim_C3_sequence_id_in_hash dbOneAccount seqEmail1 rfl
    ⟨by decide, by decide, by decide, by decide⟩
  exact ⟨h.1 seqEmail2, h.2.1, h.2.2⟩

/-- **C2** (amended).  The dedup lookup is a sequential preference, not a
disjunction: with a truthy protocol message identifier the content hash is
ignored entirely (first conjunct); the hash is consulted only when the
identifier is absent or empty.  When the lookup does find a record, the
returned id is a stored row's id, the candidate is saved through the
update path of the upsert (row count unchanged), and it is not appended as
a new email. -/
theorem claim_C2_lookup_semantics (db : DB) (e : Email)
    (hmid : pyTruthyOpt e.message_id = true)
    (hidstr : e.id = .str (idStr e))
    (hacct : e.account_email ∈ db.accounts)
    (hrows : ∀ r ∈ db.emails, r.id ≠ "" ∧ pyStartsWith "b'" r.id = false) :
    (∀ h₁ h₂ : Option String,
      email_exists db e.message_id h₁ = email_exists db e.message_id h₂) ∧
    (∀ i, email_exists db e.message_id (some (emailHashOf e)) = some i →
      (∃ r ∈ db.emails, r.id = i) ∧
      (process_candidate db e).1.emails.length = db.emails.length ∧
      (process_candidate db e).2 = none) := by
  constructor
  · intro h₁ h₂
    simp [email_exists, hmid]
  · intro i hfound
    have hrow : ∃ r ∈ db.emails, r.id = i := by
      unfold email_exists at hfound
      rw [if_neg (by simp [hmid]), if_pos hmid] at hfound
      cases hf : db.emails.find?
          (fun r => r.message_id == e.message_id.getD "") with
      | none => rw [hf] at hfound; cases hfound
      | some r =>
        rw [hf] at hfound
        exact ⟨r, List.mem_of_find?_eq_some hf, by simpa using hfound⟩
    obtain ⟨r, hrmem, hrid⟩ := hrow
    obtain ⟨hine, hiclean⟩ := hrows r hrmem
    rw [hrid] at hine hiclean
    refine ⟨⟨r, hrmem, hrid⟩, ?_⟩
    rw [process_candidate_str _ _ hidstr]
    have hpost : email_exists db (pipelinePost e).message_id
        (some (emailHashOf e)) = some i := by
      rw [pipelinePost_message_id]; exact hfound
    rw [show email_exists db e.message_id (some (emailHashOf e)) = some i
      from hfound]
    unfold process_candidate_with
    have htr : pyTruthyOpt (some i) = true := by simp [pyTruthyOpt, hine]
    rw [htr]
    simp only [if_true, Option.getD_some]
    have hsave := save_email_update db { pipelinePost e with id := .str i } i
      (by simpa [pipelinePost_account] using hacct)
      (by exact cleanEmailId_clean _ hiclean)
      (by rw [List.find?_isSome]; exact ⟨r, hrmem, by simp [hrid]⟩)
    rw [hsave]
    simp

/-- Witness for `claim_C2_lookup_semantics`: a candidate whose message
identifier matches `storedRowA` while its content hash does not. -/
theorem claim_C2_witness :
    (∃ r ∈ dbWithRowA.emails, r.id = "10") ∧
    (process_candidate dbWithRowA midEmail).1.emails.length =
      dbWithRowA.emails.length ∧
    (process_candidate dbWithRowA midEmail).2 = none :=
  (claim_C2_lookup_semantics dbWithRowA midEmail (by decide) rfl (by decide)
    (by decide)).2 "10" (by decide)

/-- **C5** (amended).  The two error sources behave differently: a failed
dedup **lookup** is absorbed inside `email_exists` (its `except` returns
`None`), so the candidate is treated as new and still saved (fail-open);
but a failed **hash computation** propagates to the per-message handler,
which logs and skips the candidate without saving it. -/
theorem claim_C5_failure_policy (db : DB) (e : Email) :
    (∀ msg : String, e.account_email ∈ db.accounts → (∃ s, e.id = .str s) →
      process_candidate_with db e (email_exists_guarded (.error msg)) =
        ((save_email db e).1, some e) ∧ (save_email db e).2 = true) ∧
    (∀ b : List Nat, e.id = .bytes b → utf8DecodeStrictStr b = none →
      process_candidate db e = (db, none)) := by
  constructor
  · intro msg hacct ⟨s, hs⟩
    constructor
    · rfl
    · have hcid : ∃ i, cleanEmailId e.id = .ok i := by
        rw [hs]
        by_cases h : pyStartsWith "b'" s = true ∧ pyEndsWith "'" s = true
        · exact ⟨pyStrip2m1 s, by simp [cleanEmailId, h]⟩
        · exact ⟨s, by simp [cleanEmailId, h]⟩
      obtain ⟨i, hcid⟩ := hcid
      by_cases hf : (db.emails.find? (fun r => r.id == i)).isSome = true
      · rw [save_email_update db e i hacct hcid hf]
      · rw [save_email_insert db e i hacct hcid
          (Option.not_isSome_iff_eq_none.mp hf)]
  · intro b hb hdec
    unfold process_candidate generate_email_hash pyStrOrDecode
    rw [hb]
    dsimp only
    rw [hdec]
    rfl

/-- Witness for `claim_C5_failure_policy`: a lookup error on `seqEmail1`
(saved anyway) and the hash error on `badIdEmail` (skipped). -/
theorem claim_C5_witness :
    process_candidate_with dbOneAccount seqEmail1
        (email_exists_guarded (.error "connection lost")) =
      ((save_email dbOneAccount seqEmail1).1, some seqEmail1) ∧
    (save_email dbOneAccount seqEmail1).2 = true ∧
    process_candidate dbOneAccount badIdEmail = (dbOneAccount, none) :=
  ⟨((claim_C5_failure_policy dbOneAccount seqEmail1).1 "connection lost"
      (by decide) ⟨"1", rfl⟩).1,
   ((claim_C5_failure_policy dbOneAccount seqEmail1).1 "connection lost"
      (by decide) ⟨"1", rfl⟩).2,
   (claim_C5_failure_policy dbOneAccount badIdEmail).2 [0xff] rfl rfl⟩

theorem charOfNat_toNat {n : Nat} (h : n < 0xD800) :
    (Char.ofNat n).toNat = n := by
  have hv : n.isValidChar := Or.inl h
  simp [Char.ofNat, hv]
  rfl

theorem mem_pyStrip (s : String) (c : Char) (h : c ∈ (pyStrip s).data) :
    c ∈ s.data := by
  unfold pyStrip at h
  have h1 := (List.dropWhile_sublist _).mem (List.mem_reverse.mp h)
  exact (List.dropWhile_sublist _).mem (List.mem_reverse.mp h1)

theorem mem_pySplitFirst (sep : Char) (s : String) (c : Char)
    (h : c ∈ (pySplitFirst sep s).data) : c ∈ s.data :=
  (List.takeWhile_sublist _).mem h

theorem mem_pySplitLast (sep : Char) (s : String) (c : Char)
    (h : c ∈ (pySplitLast sep s).data) : c ∈ s.data :=
  List.mem_reverse.mp ((List.takeWhile_sublist _).mem (List.mem_reverse.mp h))

theorem mem_pyEraseChar (o : Char) (s : String) (c : Char)
    (h : c ∈ (pyEraseChar o s).data) : c ∈ s.data :=
  List.mem_of_mem_filter h

theorem mem_pyReplaceChar (o n : Char) (s : String) (c : Char)
    (h : c ∈ (pyReplaceChar o n s).data) : c ∈ s.data ∨ c = n := by
  obtain ⟨c1, hc1, rfl⟩ := List.mem_map.mp h
  by_cases h1 : c1 = o
  · right; simp [h1]
  · left; simpa [h1] using hc1

theorem mem_extract_domain (s : String) (c : Char)
    (h : c ∈ (extract_domain s).data) : c ∈ s.data := by
  unfold extract_domain at h
  split at h
  · exact mem_pySplitLast '@' s c (mem_pySplitFirst '>' _ c (mem_pyStrip _ c h))
  · exact h

theorem mem_senderNamePart (s : String) (c : Char)
    (h : c ∈ (senderNamePart s).data) : c ∈ s.data := by
  unfold senderNamePart at h
  dsimp only at h
  repeat' split at h
  all_goals first
    | exact mem_extract_domain s c (mem_pySplitFirst '.' _ c h)
    | exact mem_extract_domain s c h
    | (have h1 := mem_pyEraseChar '"' _ c (mem_pyEraseChar '\'' _ c (mem_pyStrip _ c h))
       first
         | exact mem_pySplitFirst '<' s c (mem_pyStrip _ c h1)
         | exact mem_pySplitFirst '@' s c h1
         | exact h1)

theorem senderFolderName_chars (s : String) (c : Char)
    (h : c ∈ (senderFolderName s).data) :
    (pyIsAlnumChar c = true ∨ c = '_') ∧ (c ∈ s.data ∨ c = '_') := by
  unfold senderFolderName at h
  dsimp only at h
  refine ⟨by simpa using (List.mem_filter.mp h).2, ?_⟩
  have h1 := List.mem_of_mem_filter h
  rcases mem_pyReplaceChar ' ' '_' _ c h1 with h2 | h2
  · rcases mem_pyReplaceChar '.' '_' _ c h2 with h3 | h3
    · rcases mem_pyReplaceChar '-' '_' _ c h3 with h4 | h4
      · exact .inl (mem_senderNamePart s c h4)
      · exact .inr h4
    · exact .inr h3
  · exact .inr h2

theorem slug_of_lower (c : Char) (hascii : c.toNat < 128)
    (h : pyIsAlnumChar c = true ∨ c = '_') :
    isSlugChar (pyLowerChar c) = true := by
  rcases h with h | rfl
  · simp only [pyIsAlnumChar, decide_eq_true_eq, Bool.or_eq_true] at h
    unfold pyLowerChar isSlugChar
    rcases h with ⟨h1, h2⟩ | ⟨h1, h2⟩ | ⟨h1, h2⟩ | rfl
    · rw [if_neg (by omega)]
      simp; omega
    · rw [if_neg (by omega)]
      simp; omega
    · rw [if_pos (by omega)]
      have ht : (Char.ofNat (c.toNat + 32)).toNat = c.toNat + 32 :=
        charOfNat_toNat (by omega)
      simp [ht]; omega
    · exact absurd hascii (by decide)
  · decide

theorem extract_sender_name_spec (s : String) :
    extract_sender_name s ≠ "" ∧
    (AsciiStr s → ∀ c ∈ (extract_sender_name s).data, isSlugChar c = true) := by
  unfold extract_sender_name
  dsimp only
  by_cases hf : senderFolderName s = ""
  · rw [if_pos hf]
    refine ⟨by decide, fun _ c hc => ?_⟩
    have hall : (pyLower "unknown_sender").data.all isSlugChar = true := by decide
    exact List.all_eq_true.mp hall c hc
  · rw [if_neg hf]
    constructor
    · intro he
      apply hf
      have hd : (senderFolderName s).data.map pyLowerChar = [] :=
        congrArg String.data he
      have : (senderFolderName s).data = [] := List.map_eq_nil_iff.mp hd
      exact String.ext this
    · intro hascii c hc
      obtain ⟨c0, hc0, rfl⟩ := List.mem_map.mp hc
      obtain ⟨halnum, hsrc⟩ := senderFolderName_chars s c0 hc0
      have hasc : c0.toNat < 128 := by
        rcases hsrc with h | rfl
        · exact hascii c0 h
        · decide
      exact slug_of_lower c0 hasc halnum

theorem enhanced_default (e : Email) (h : matchesAnyPredicate e = false) :
    enhanced_categorize_email e = ("general", extract_sender_name e.sender) := by
  unfold matchesAnyPredicate at h
  dsimp only at h
  simp only [Bool.or_eq_false_iff] at h
  obtain ⟨⟨⟨⟨⟨⟨⟨⟨⟨⟨h1, h2⟩, h3⟩, h4⟩, h5⟩, h6⟩, h7⟩, h8⟩, h9⟩, h10⟩, h11⟩ := h
  unfold enhanced_categorize_email
  dsimp only
  rw [if_neg (by simp [h1]), if_neg (by simp [h2]), if_neg (by simp [h3]),
    if_neg (by simp [h4]), if_neg (by simp [h5]), if_neg (by simp [h6]),
    if_neg (by simp [h7]), if_neg (by simp [h8]), if_neg (by simp [h9]),
    if_neg (by simp [h10]), if_neg (by simp [h11])]

/-- **C7** (amended).  A message matching no hierarchical predicate is
returned as `("general", slug)` with the slug derived **only** from the
sender by `_extract_sender_name`; the slug is never empty (`unknown_sender`
replaces an empty result) and is lower-cased; and whenever the sender is
ASCII-only the slug's characters all lie in `[a-z0-9_]`.  (For non-ASCII
senders, Unicode alphanumerics such as `é` survive the `isalnum` filter —
see the counterexample.) -/
theorem claim_C7_default_slug (e : Email)
    (hnone : matchesAnyPredicate e = false)
    (hascii : AsciiStr e.sender) :
    enhanced_categorize_email e = ("general", extract_sender_name e.sender) ∧
    extract_sender_name e.sender ≠ "" ∧
    (∀ c ∈ (extract_sender_name e.sender).data, isSlugChar c = true) :=
  ⟨enhanced_default e hnone, (extract_sender_name_spec e.sender).1,
    (extract_sender_name_spec e.sender).2 hascii⟩

/-- Witness for `claim_C7_default_slug` at the concrete predicate-free
message `noMatchEmail`. -/
theorem claim_C7_witness :
    enhanced_categorize_email noMatchEmail =
      ("general", extract_sender_name noMatchEmail.sender) ∧
    extract_sender_name noMatchEmail.sender ≠ "" ∧
    (∀ c ∈ (extract_sender_name noMatchEmail.sender).data,
      isSlugChar c = true) :=
  claim_C7_default_slug noMatchEmail (by decide) (by decide)
